import Mathlib

/-!
Shallow embedding of the RCA multi-agent pipeline:
`app/agents/RCA_agent.py`, `app/agents/fix_agent.py`, `app/agents/patch_agent.py`,
`app/tools/read_file_tool.py`, `app/tools/check_dependency_tool.py`,
`app/tools/create_patch_tool.py`, and the stage seeding in `app/workflow.py`.

Conventions:
* Python dictionaries with a fixed key set become structures; keys that may be
  absent become `Option` fields.
* The completion service (Gemini/Groq invocations), the pydantic output-parser
  chains (`PydanticOutputParser` + `OutputFixingParser`) and the
  `get_project_directory` tool are external boundaries; they appear as function
  parameters of the stage runners.
* The filesystem is an association list from absolute path to file content;
  `time.sleep` calls and log output are invisible to the embedding.
-/

set_option autoImplicit false

/-- Role of one chat message: system instruction, human input, model response,
or tool result. -/
inductive Role where
  | system
  | human
  | ai
  | tool
deriving DecidableEq

/-- One tool invocation requested by the model: tool name, argument mapping
(string keys to string values, the only shapes these agents use), and the
correlation id. -/
structure ToolCall where
  name : String
  args : List (String × String)
  id : String
deriving DecidableEq

/-- One conversation turn. `toolCalls` is empty unless the model requested tools
(`HumanMessage`/`SystemMessage`/`ToolMessage` objects have no `tool_calls`
attribute, which the Python code treats exactly like an empty list). -/
structure Message where
  role : Role
  content : String
  toolCalls : List ToolCall := []
deriving DecidableEq

/-- `SystemMessage(content=s)`. -/
def sysMsg (s : String) : Message := { role := .system, content := s }

/-- `HumanMessage(content=s)`. -/
def humanMsg (s : String) : Message := { role := .human, content := s }

/-- `ToolMessage(content=s, ...)`. -/
def toolMsg (s : String) : Message := { role := .tool, content := s }

/-- `state["messages"][-1]`; all loops only evaluate it on non-empty
transcripts (every stage is seeded with at least one message and messages are
append-only), so a default message stands in for Python's `IndexError`. -/
def lastMessage (msgs : List Message) : Message := (msgs.getLast?).getD (humanMsg "")

/-- Model of the filesystem visible to the tools: absolute path to file content. -/
abbrev FileSystem := List (String × String)

/-! ### `read_file` (`app/tools/read_file_tool.py`) -/

/-- `file_path.lstrip("/")`: drop every leading `/`. -/
def stripSlashes (p : String) : String := String.mk (p.toList.dropWhile (· = '/'))

/-- Whether a path string starts with `/`. -/
def headIsSlash (p : String) : Bool := p.toList.head? == some '/'

/-- Whether a path string ends with `/`. -/
def lastIsSlash (p : String) : Bool := p.toList.getLast? == some '/'

/-- `os.path.join(codebase_root, p)` for string arguments. -/
def joinPath (root p : String) : String :=
  if headIsSlash p then p
  else if root = "" then p
  else if lastIsSlash root then root ++ p
  else root ++ "/" ++ p

/-- Splits a character list at every occurrence of a separator character (the
semantics of Python `str.split(sep)` for a one-character separator). -/
def splitOnChar (sep : Char) : List Char → List (List Char)
  | [] => [[]]
  | c :: rest =>
    if c = sep then [] :: splitOnChar sep rest
    else
      match splitOnChar sep rest with
      | [] => [[c]]
      | g :: gs => (c :: g) :: gs

/-- `len(s.split('\n'))`, the line count the tools report: one more than the
number of newline characters. -/
def pyLineCount (s : String) : Nat := (splitOnChar '\n' s.toList).length

/-- Component pass of `os.path.normpath` on an absolute path: drop empty and
`.` segments, let `..` consume the previous segment (or vanish at the root). -/
def normSegs : List String → List String → List String
  | acc, [] => acc.reverse
  | acc, c :: cs =>
    if c = "" ∨ c = "." then normSegs acc cs
    else if c = ".." then normSegs acc.tail cs
    else normSegs (c :: acc) cs

/-- `os.path.abspath` applied to an already-absolute path (the codebase root is
configured as an absolute directory), which is then pure textual normalisation. -/
def normAbs (p : String) : String :=
  "/" ++ String.intercalate "/" (normSegs [] ((splitOnChar '/' p.toList).map String.mk))

/-- The absolute path `read_file` resolves `file_path` to:
`os.path.abspath(os.path.join(codebase_root, file_path.lstrip("/")))`. -/
def resolvedPath (root filePath : String) : String :=
  normAbs (joinPath root (stripSlashes filePath))

/-- The dictionary returned by `read_file`. -/
structure ReadResult where
  success : Bool
  file_path : String
  absolute_path : Option String := none
  content : Option String := none
  lines : Option Nat := none
  error : Option String := none
deriving DecidableEq

/-- `read_file(file_path)`: fails when `CODEBASE_ROOT` is unset/empty, resolves
the path via `resolvedPath`, fails when no regular file is there, otherwise
returns content plus `len(content.split('\n'))` as the line count. -/
def read_file (codebaseRoot : Option String) (fs : FileSystem) (file_path : String) :
    ReadResult :=
  match codebaseRoot with
  | none =>
    { success := false, file_path := file_path
      error := some "CODEBASE_ROOT environment variable not set" }
  | some root =>
    if root = "" then
      { success := false, file_path := file_path
        error := some "CODEBASE_ROOT environment variable not set" }
    else
      let absPath := resolvedPath root file_path
      match fs.lookup absPath with
      | none =>
        { success := false, file_path := file_path
          error := some ("File not found: " ++ absPath) }
      | some content =>
        { success := true, file_path := file_path, absolute_path := some absPath
          content := some content, lines := some (pyLineCount content) }

/-! ### `check_dependency` (`app/tools/check_dependency_tool.py`) -/

/-- A Python runtime value as far as `check_dependency`'s body can observe one:
the `re.findall` calls only distinguish strings from everything else. -/
inductive Py where
  | str (s : String)
  | bool (b : Bool)
  | int (n : Nat)
  | dict (fields : List (String × Py))

/-- The dictionary `read_file.invoke({"file_path": ...})` returns, as the Python
value that `check_dependency` binds to its `content` variable. -/
def pyOfReadResult (r : ReadResult) : Py :=
  .dict ([("success", Py.bool r.success), ("file_path", Py.str r.file_path)]
    ++ (match r.absolute_path with | some a => [("absolute_path", Py.str a)] | none => [])
    ++ (match r.content with | some c => [("content", Py.str c)] | none => [])
    ++ (match r.lines with | some n => [("lines", Py.int n)] | none => [])
    ++ (match r.error with | some e => [("error", Py.str e)] | none => []))

/-- `re.findall(pattern, value, ...)`: extracts matches when the value is a
string, and raises `TypeError` for any non-string value (in particular for the
dictionary `check_dependency` passes it). -/
def reFindall (extract : String → List String) : Py → Except String (List String)
  | .str s => .ok (extract s)
  | _ => .error "expected string or bytes-like object"

/-- `\s` of the two `re.MULTILINE` patterns, restricted to one line. -/
def isPySpace (c : Char) : Bool :=
  c = ' ' || c = '\t' || c = '\x0b' || c = '\x0c' || c = '\r'

/-- The `[a-zA-Z0-9_\.]` character class of the import patterns. -/
def isModChar (c : Char) : Bool := c.isAlphanum || c = '_' || c = '.'

/-- Per-line reading of `^\s*import\s+([a-zA-Z0-9_\.]+)` under `re.MULTILINE`. -/
def lineImportTarget (line : List Char) : Option (List Char) :=
  let l := line.dropWhile isPySpace
  if l.take 6 = "import".toList then
    let rest := l.drop 6
    let rest' := rest.dropWhile isPySpace
    if rest.length = rest'.length then none
    else
      let m := rest'.takeWhile isModChar
      if m.isEmpty then none else some m
  else none

/-- Per-line reading of `^\s*from\s+([a-zA-Z0-9_\.]+)\s+import` under
`re.MULTILINE`. -/
def lineFromTarget (line : List Char) : Option (List Char) :=
  let l := line.dropWhile isPySpace
  if l.take 4 = "from".toList then
    let rest := l.drop 4
    let rest' := rest.dropWhile isPySpace
    if rest.length = rest'.length then none
    else
      let m := rest'.takeWhile isModChar
      if m.isEmpty then none
      else
        let after := rest'.drop m.length
        let after' := after.dropWhile isPySpace
        if after.length = after'.length then none
        else if after'.take 6 = "import".toList then some m else none
  else none

/-- All targets of python import pattern 1 over a source string. -/
def pythonImportTargets (content : String) : List String :=
  (splitOnChar '\n' content.toList).filterMap fun l => (lineImportTarget l).map String.mk

/-- All targets of python import pattern 2 over a source string. -/
def pythonFromTargets (content : String) : List String :=
  (splitOnChar '\n' content.toList).filterMap fun l => (lineFromTarget l).map String.mk

/-- The two JS patterns of `check_dependency`. Dead code in the tool: every
`reFindall` call there receives the non-string `read_file` dictionary and the
first one already raises (see `check_dependency_never_succeeds`), so this value
can influence no behaviour and no theorem. -/
def jsImportTargets (_content : String) : List String := []

/-- Lexicographic (code-point) order on character lists, Python's string
order. -/
def listLe : List Char → List Char → Bool
  | [], _ => true
  | _ :: _, [] => false
  | a :: as, b :: bs => if a = b then listLe as bs else decide (a < b)

/-- Python `a <= b` on strings. -/
def strLe (a b : String) : Bool := listLe a.toList b.toList

/-- Insertion into a lexicographically sorted list of strings. -/
def insertSorted (x : String) : List String → List String
  | [] => [x]
  | y :: ys => if strLe x y then x :: y :: ys else y :: insertSorted x ys

/-- `sorted(...)` on strings. -/
def sortStrings (l : List String) : List String := l.foldr insertSorted []

/-- `sorted(set(l))`. -/
def sortedDedup (l : List String) : List String := sortStrings l.eraseDups

/-- The dictionary returned by `check_dependency`. -/
structure DepResult where
  success : Bool
  file : String
  python_dependencies : Option (List String) := none
  js_dependencies : Option (List String) := none
  error : Option String := none
deriving DecidableEq

/-- `check_dependency(file_path)`: binds `content` to the **dictionary**
returned by `read_file.invoke` and hands that dictionary itself to
`re.findall`, whose `TypeError` the `except` clause converts into a failure
payload; on a (counterfactual) string the chain would run the four patterns and
return their deduplicated, sorted targets. -/
def check_dependency (codebaseRoot : Option String) (fs : FileSystem)
    (file_path : String) : DepResult :=
  let content : Py := pyOfReadResult (read_file codebaseRoot fs file_path)
  match reFindall pythonImportTargets content with
  | .error e => { success := false, file := file_path, error := some e }
  | .ok p1 =>
    match reFindall pythonFromTargets content with
    | .error e => { success := false, file := file_path, error := some e }
    | .ok p2 =>
      match reFindall jsImportTargets content with
      | .error e => { success := false, file := file_path, error := some e }
      | .ok j1 =>
        match reFindall jsImportTargets content with
        | .error e => { success := false, file := file_path, error := some e }
        | .ok j2 =>
          { success := true, file := file_path
            python_dependencies := some (sortedDedup (p1 ++ p2))
            js_dependencies := some (sortedDedup (j1 ++ j2)) }

/-- The python-import extraction that `check_dependency` is specified to
produce for a readable file's content: targets of the two patterns,
deduplicated and sorted. -/
def extractPythonImports (content : String) : List String :=
  sortedDedup (pythonImportTargets content ++ pythonFromTargets content)

/-! ### `create_patch_file` (`app/tools/create_patch_tool.py`) -/

/-- The last `/`-separated path component after empty and `.` components are
dropped (`[]` when none remains) — path parsing as `pathlib` does it. -/
def pathNameAux (l : List Char) : List Char :=
  (((splitOnChar '/' l).filter fun g => !(g == [] || g == ['.'])).getLast?).getD []

/-- `pathlib.PurePath(p).name`. -/
def pathName (p : String) : String := String.mk (pathNameAux p.toList)

/-- A Patch-stage result dictionary: both the `create_patch_file` return value
and the degraded `{success, error}` values stored under
`shared_memory["patch_result"]` have this shape (absent keys are `none`). -/
structure PatchResult where
  success : Bool
  patch_file : Option String := none
  original_file : Option String := none
  fixed_filename : Option String := none
  size_bytes : Option Nat := none
  lines : Option Nat := none
  message : Option String := none
  error : Option String := none
deriving DecidableEq

/-- `create_patch_file(original_file_path, fixed_content)`: writes
`fixed_content` verbatim to `patches/fixed_<basename>` (creating the directory
when absent — in the map model, prepending the binding) and reports byte size
(`utf-8` on-disk size) and `len(fixed_content.split('\n'))`. The cwd-dependent
`absolute_path` field of the Python dictionary is outside the model; OS-level
write failures, the only source of the `except` branch, are likewise external. -/
def create_patch_file (patchesDir : FileSystem)
    (original_file_path fixed_content : String) : PatchResult × FileSystem :=
  let fixed_filename := "fixed_" ++ pathName original_file_path
  let patch_file_path := "patches/" ++ fixed_filename
  ({ success := true
     patch_file := some patch_file_path
     original_file := some original_file_path
     fixed_filename := some fixed_filename
     size_bytes := some fixed_content.utf8ByteSize
     lines := some (pyLineCount fixed_content)
     message := some ("Patch created successfully at " ++ patch_file_path) },
   (patch_file_path, fixed_content) :: patchesDir)

/-! ### Shared agent-loop vocabulary -/

/-- The structured RCA output schema (`RCAOutput` in `RCA_agent.py`). -/
structure RCAOutput where
  error_type : String
  error_message : String
  root_cause : String
  affected_file : String
  affected_line : Int
deriving DecidableEq

/-- The structured Fix output schema (`FixOutput` in `fix_agent.py`); the same
shape is stored as `shared_memory["fix_result"]`. -/
structure FixResult where
  fix_summary : String
  files_to_modify : List String
  patch_plan : List String
  safety_considerations : String
deriving DecidableEq

/-- A tool observation as stored in the audit log (`"output"` key of a
`tool_call` entry). -/
inductive ToolObs where
  | read (r : ReadResult)
  | dep (r : DepResult)
  | patch (r : PatchResult)
  | text (s : String)
deriving DecidableEq

/-- One entry of `message_history`: the `event` tag plus whichever payload keys
that event carries (absent keys are `none`; wall-clock `timestamp` keys are
outside the model). -/
structure AuditEntry where
  event : String
  iteration : Nat
  agent : Option String := none
  content : Option String := none
  toolCalls : Option (List ToolCall) := none
  tool : Option String := none
  input : Option (List (String × String)) := none
  output : Option ToolObs := none
  fix_result : Option FixResult := none
  patch_result : Option PatchResult := none
  error : Option String := none
deriving DecidableEq

/-- Number of history entries with a given event tag. -/
def countEvent (e : String) (h : List AuditEntry) : Nat :=
  h.countP fun a => a.event == e

/-- Result of one completion-service invocation: a response message, or a
raised provider exception. -/
inductive ModelResult where
  | ok (m : Message)
  | raise (e : String)

/-- The completion service as consumed by the agents: the full message list
sent determines the response. -/
abbrev Oracle := List Message → ModelResult

/-- `tool_args["file_path"]` for the file tools. -/
def filePathArg (args : List (String × String)) : String :=
  (args.lookup "file_path").getD ""

/-- The formatted `ToolMessage` content the Fix/Patch tool nodes build for a
`read_file` observation. -/
def readToolContent (r : ReadResult) : String :=
  if r.success then
    "Successfully read file: " ++ r.file_path
      ++ "\nTotal lines: " ++ (match r.lines with | some n => toString n | none => "N/A")
      ++ "\n\nFile Content:\n" ++ r.content.getD ""
  else
    "Error: " ++ r.error.getD "Unknown error"

/-- Deterministic rendering standing in for Python `str()` / `json.dumps` of an
observation; no property in this file depends on its exact shape. -/
def renderObs : ToolObs → String
  | .read r => "read_file success=" ++ toString r.success
  | .dep r => "check_dependency success=" ++ toString r.success
  | .patch r => "create_patch_file success=" ++ toString r.success
  | .text s => s

/-- Routing decision of a `should_continue` conditional edge. -/
inductive StageRoute where
  | tools
  | llm
  | done
deriving DecidableEq

/-! ### RCA stage (`app/agents/RCA_agent.py`)

The system prompts are opaque data to every property proved here; their literal
text is abbreviated to the opening sentence. -/

/-- RCA stage system prompt (abbreviated literal). -/
def RCA_SYSTEM_PROMPT : String :=
  "You are an expert Root Cause Analysis (RCA) Agent specializing in debugging and error analysis for APM (Application Performance Monitoring) codebases."

/-- `shared_memory` of the RCA stage. -/
structure RCAShared where
  iteration : Nat
  rca_result : Option RCAOutput := none
deriving DecidableEq

/-- The langgraph channel state of the RCA stage. -/
structure RCAState where
  messages : List Message
  shared : RCAShared
  history : List AuditEntry
deriving DecidableEq

/-- The message list `rca_llm_node` sends to the model:
`[SystemMessage(SYSTEM_PROMPT)] + state["messages"]`. -/
def rcaRequest (s : RCAState) : List Message := sysMsg RCA_SYSTEM_PROMPT :: s.messages

/-- `rca_llm_node`: bump the iteration counter, log `agent_input`, invoke the
model on the full conversation, log `agent_output`; with tool calls the
response is appended and routing continues, otherwise the response text is
parsed (`rca_parser` then `fixing_parser`, both external: `parseRCA`) into
`shared_memory["rca_result"]`. Provider and parser exceptions are not caught
in this node and propagate (`Except.error`). -/
def rca_llm_node (o : Oracle) (parseRCA : String → Except String RCAOutput)
    (s : RCAState) : Except String RCAState :=
  let iteration := s.shared.iteration + 1
  let hIn : AuditEntry :=
    { event := "agent_input", agent := some "RCA", iteration := iteration
      content := some (lastMessage s.messages).content }
  match o (rcaRequest s) with
  | .raise e => .error e
  | .ok response =>
    let hOut : AuditEntry :=
      { event := "agent_output", agent := some "RCA", iteration := iteration
        content := some response.content, toolCalls := some response.toolCalls }
    if response.toolCalls.isEmpty then
      match parseRCA response.content with
      | .error e => .error e
      | .ok rca =>
        .ok { messages := s.messages ++ [response]
              shared := { iteration := iteration, rca_result := some rca }
              history := s.history ++ [hIn, hOut] }
    else
      .ok { messages := s.messages ++ [response]
            shared := { iteration := iteration, rca_result := s.shared.rca_result }
            history := s.history ++ [hIn, hOut] }

/-- Dispatch of one RCA tool call. `get_project_directory` is an external
filesystem walk, passed in as `gpd`. -/
def rcaToolObs (root : Option String) (fs : FileSystem)
    (gpd : List (String × String) → ToolObs) (tc : ToolCall) : ToolObs :=
  if tc.name = "read_file" then .read (read_file root fs (filePathArg tc.args))
  else if tc.name = "get_project_directory" then gpd tc.args
  else if tc.name = "check_dependency" then .dep (check_dependency root fs (filePathArg tc.args))
  else .text ("Unknown tool: " ++ tc.name)

/-- `tool_node` of the RCA agent: execute every call of the last message in
order, log one `tool_call` entry per call, and append one `ToolMessage` per
call. -/
def rca_tool_node (root : Option String) (fs : FileSystem)
    (gpd : List (String × String) → ToolObs) (s : RCAState) : RCAState :=
  let last := lastMessage s.messages
  if last.toolCalls.isEmpty then s
  else
    { s with
      messages := s.messages
        ++ last.toolCalls.map fun tc => toolMsg (renderObs (rcaToolObs root fs gpd tc))
      history := s.history ++ last.toolCalls.map fun tc =>
        { event := "tool_call", iteration := s.shared.iteration, tool := some tc.name
          input := some tc.args, output := some (rcaToolObs root fs gpd tc) } }

/-- `should_continue` of the RCA agent: iteration cap first, then pending tool
calls, then a produced result, else loop back to the model. -/
def rca_should_continue (s : RCAState) : StageRoute :=
  if 5 ≤ s.shared.iteration then .done
  else if !(lastMessage s.messages).toolCalls.isEmpty then .tools
  else if s.shared.rca_result.isSome then .done
  else .llm

/-- Terminal observation of an RCA run; `rounds` counts `rca_llm_node`
executions (= model round-trips, the iteration counter's increments). -/
inductive RCAOutcome where
  | finished (s : RCAState) (rounds : Nat)
  | outOfFuel (s : RCAState) (rounds : Nat)
  | raised (e : String) (rounds : Nat)

/-- The compiled RCA graph (`START → llm`, conditional edges from `llm`,
`tools → llm`), run with explicit fuel bounding the number of `llm` node
executions; `rounds` accumulates them. -/
def rcaRun (o : Oracle) (parseRCA : String → Except String RCAOutput)
    (root : Option String) (fs : FileSystem)
    (gpd : List (String × String) → ToolObs) :
    Nat → RCAState → Nat → RCAOutcome
  | 0, s, r => .outOfFuel s r
  | n + 1, s, r =>
    match rca_llm_node o parseRCA s with
    | .error e => .raised e r
    | .ok s1 =>
      match rca_should_continue s1 with
      | .done => .finished s1 (r + 1)
      | .tools => rcaRun o parseRCA root fs gpd n (rca_tool_node root fs gpd s1) (r + 1)
      | .llm => rcaRun o parseRCA root fs gpd n s1 (r + 1)

/-- True exactly on the fuel-exhaustion outcome. -/
def rcaOutOfFuel : RCAOutcome → Prop
  | .outOfFuel _ _ => True
  | _ => False

/-! ### Fix stage (`app/agents/fix_agent.py`) -/

/-- Fix stage system prompt (`app/prompts/fix.py`, abbreviated literal). -/
def FIX_SYSTEM_PROMPT : String :=
  "You are a Fix Suggestion Agent that creates actionable fix plans from Root Cause Analysis results."

/-- `shared_memory` of the Fix stage (merged key-wise by the
`{**x, **y}` reducer; nodes only ever write `iteration` and `fix_result`, so
`rca_result` is carried through unchanged). -/
structure FixShared where
  iteration : Nat
  rca_result : Option RCAOutput := none
  fix_result : Option FixResult := none
deriving DecidableEq

/-- The langgraph channel state of the Fix stage. -/
structure FixState where
  messages : List Message
  shared : FixShared
  history : List AuditEntry
deriving DecidableEq

/-- The `agent_input` f-string `fix_llm_node` renders from the RCA result. -/
def fixAgentInput (r : RCAOutput) : String :=
  "\nRoot Cause Analysis:\n\nError Type: " ++ r.error_type
    ++ "\nError Message: " ++ r.error_message
    ++ "\nRoot Cause: " ++ r.root_cause
    ++ "\nAffected File: " ++ r.affected_file
    ++ "\nAffected Line: " ++ toString r.affected_line
    ++ "\n\nYou MUST use the Affected File and Affected Line provided in RCA.\n"

/-- The message list `fix_llm_node` sends to the model on **every** round:
`[SystemMessage(SYSTEM_PROMPT), HumanMessage(agent_input)]` — rebuilt from
scratch, never containing the accumulated transcript. -/
def fixRequest (r : RCAOutput) : List Message :=
  [sysMsg FIX_SYSTEM_PROMPT, humanMsg (fixAgentInput r)]

/-- The fallback fix plan built in `fix_llm_node`'s `except` clause. -/
def fixFallbackResult (r : RCAOutput) (e : String) : FixResult :=
  { fix_summary := "Analysis failed"
    files_to_modify := [r.affected_file]
    patch_plan := ["Manual fix required"]
    safety_considerations := e }

/-- `fix_llm_node`: raises `ValueError` when no RCA result is in shared memory;
otherwise asks `model_with_tools` (oracle `o`) first, returning the response on
tool calls, else asks `model_with_structured_output` (`so`; a parse failure
surfaces as an exception at `.model_dump()` and is folded into `so`'s error);
on structured success `files_to_modify` is overwritten with
`[rca_result["affected_file"]]`; any exception yields the fallback plan and a
single `fix_failed` history entry (the round's `agent_input` entry is dropped
on that path). -/
def fix_llm_node (o : Oracle) (so : List Message → Except String FixResult)
    (s : FixState) : Except String FixState :=
  match s.shared.rca_result with
  | none => .error "RCA output missing in shared memory"
  | some r =>
    let iteration := s.shared.iteration + 1
    let hIn : AuditEntry :=
      { event := "agent_input", agent := some "Fix", iteration := iteration
        content := some (fixAgentInput r) }
    let conversation := fixRequest r
    let fallback := fun (e : String) =>
      { s with
        shared := { s.shared with iteration := iteration,
                                  fix_result := some (fixFallbackResult r e) }
        history := s.history
          ++ [{ event := "fix_failed", iteration := iteration, error := some e }] }
    match o conversation with
    | .raise e => .ok (fallback e)
    | .ok toolCheck =>
      if toolCheck.toolCalls.isEmpty then
        match so conversation with
        | .error e => .ok (fallback e)
        | .ok structuredFix =>
          let fixData := { structuredFix with files_to_modify := [r.affected_file] }
          let hOut : AuditEntry :=
            { event := "agent_output", agent := some "Fix", iteration := iteration
              fix_result := some fixData }
          .ok { messages := s.messages
                  ++ [humanMsg ("Fix plan completed: " ++ fixData.fix_summary)]
                shared := { s.shared with iteration := iteration,
                                          fix_result := some fixData }
                history := s.history ++ [hIn, hOut] }
      else
        .ok { messages := s.messages ++ [toolCheck]
              shared := { s.shared with iteration := iteration }
              history := s.history ++ [hIn] }

/-- Observation of one Fix-stage tool call (`read_file` is the only bound
tool; anything else yields the unknown-tool string). -/
def fixToolObs (root : Option String) (fs : FileSystem) (tc : ToolCall) : ToolObs :=
  if tc.name = "read_file" then .read (read_file root fs (filePathArg tc.args))
  else .text ("Unknown tool: " ++ tc.name)

/-- `ToolMessage` content of one Fix-stage tool call. -/
def fixToolContent (root : Option String) (fs : FileSystem) (tc : ToolCall) : String :=
  if tc.name = "read_file" then readToolContent (read_file root fs (filePathArg tc.args))
  else "Unknown tool: " ++ tc.name

/-- `tool_node` of the Fix agent. -/
def fix_tool_node (root : Option String) (fs : FileSystem) (s : FixState) : FixState :=
  let last := lastMessage s.messages
  if last.toolCalls.isEmpty then s
  else
    { s with
      messages := s.messages ++ last.toolCalls.map fun tc => toolMsg (fixToolContent root fs tc)
      history := s.history ++ last.toolCalls.map fun tc =>
        { event := "tool_call", iteration := s.shared.iteration, tool := some tc.name
          input := some tc.args, output := some (fixToolObs root fs tc) } }

/-- `should_continue` of the Fix agent: a produced `fix_result` ends the stage,
then the iteration cap (3), then pending tool calls, else back to the model. -/
def fix_should_continue (s : FixState) : StageRoute :=
  if s.shared.fix_result.isSome then .done
  else if 3 ≤ s.shared.iteration then .done
  else if !(lastMessage s.messages).toolCalls.isEmpty then .tools
  else .llm

/-- Terminal observation of a Fix run; `rounds` counts `fix_llm_node`
executions. -/
inductive FixOutcome where
  | finished (s : FixState) (rounds : Nat)
  | outOfFuel (s : FixState) (rounds : Nat)
  | raised (e : String) (rounds : Nat)

/-- The compiled Fix graph, run with explicit fuel bounding `llm` executions. -/
def fixRun (o : Oracle) (so : List Message → Except String FixResult)
    (root : Option String) (fs : FileSystem) :
    Nat → FixState → Nat → FixOutcome
  | 0, s, r => .outOfFuel s r
  | n + 1, s, r =>
    match fix_llm_node o so s with
    | .error e => .raised e r
    | .ok s1 =>
      match fix_should_continue s1 with
      | .done => .finished s1 (r + 1)
      | .tools => fixRun o so root fs n (fix_tool_node root fs s1) (r + 1)
      | .llm => fixRun o so root fs n s1 (r + 1)

/-- True exactly on the fuel-exhaustion outcome. -/
def fixOutOfFuel : FixOutcome → Prop
  | .outOfFuel _ _ => True
  | _ => False

/-- The `fix_result` visible in shared memory at the end of a Fix run (`none`
when the stage aborted with an exception and langgraph discarded the state). -/
def fixResultOf : FixOutcome → Option FixResult
  | .finished s _ => s.shared.fix_result
  | .outOfFuel s _ => s.shared.fix_result
  | .raised _ _ => none

/-- The audit log at the end of a Fix run. -/
def fixHistoryOf : FixOutcome → List AuditEntry
  | .finished s _ => s.history
  | .outOfFuel s _ => s.history
  | .raised _ _ => []

/-! ### Patch stage (`app/agents/patch_agent.py`) -/

/-- Patch stage system prompt (abbreviated literal). -/
def PATCH_SYSTEM_PROMPT : String :=
  "You are a Precision Patch Generation Agent specialized in making MINIMAL, TARGETED code fixes."

/-- `shared_memory` of the Patch stage (a plain dict, mutated in place). -/
structure PatchShared where
  patch_iteration : Nat
  rca_result : Option RCAOutput := none
  fix_result : Option FixResult := none
  patch_result : Option PatchResult := none
  patch_file_loaded : Bool := false
deriving DecidableEq

/-- The langgraph channel state of the Patch stage; `patchesDir` carries the
files `create_patch_file` has written. -/
structure PatchState where
  messages : List Message
  shared : PatchShared
  history : List AuditEntry
  patchesDir : FileSystem
deriving DecidableEq

/-- `rca_result.get(field, 'N/A')` for string fields. -/
def rcaFieldS (o : Option RCAOutput) (f : RCAOutput → String) : String :=
  match o with
  | some r => f r
  | none => "N/A"

/-- `rca_result.get('affected_line', 'N/A')`. -/
def rcaLineS (o : Option RCAOutput) : String :=
  match o with
  | some r => toString r.affected_line
  | none => "N/A"

/-- The numbered rendering of the patch plan
(`"\n".join(f"{i+1}. {step}" ...)`). -/
def numberPlan (steps : List String) : String :=
  String.intercalate "\n" (steps.enum.map fun p => toString (p.1 + 1) ++ ". " ++ p.2)

/-- `files_to_modify[0] if files_to_modify else 'N/A'`. -/
def targetFileOf (fr : FixResult) : String :=
  match fr.files_to_modify with
  | [] => "N/A"
  | f :: _ => f

/-- The `fix_text` f-string of `patch_llm_node` (decorative separator lines
abbreviated; the string is opaque data to every property proved here). The RCA
result dictionary has no `fix_recommendation` key, so that `.get` always
yields `N/A`. -/
def patchFixText (sh : PatchShared) : String :=
  match sh.fix_result with
  | none => "No fix plan found in shared memory."
  | some fr =>
    "\nROOT CAUSE ANALYSIS RESULTS:\n\nError Type: " ++ rcaFieldS sh.rca_result (fun r => r.error_type)
      ++ "\nError Message: " ++ rcaFieldS sh.rca_result (fun r => r.error_message)
      ++ "\nAffected File: " ++ rcaFieldS sh.rca_result (fun r => r.affected_file)
      ++ "\nAffected Line: " ++ rcaLineS sh.rca_result
      ++ "\n\nRoot Cause Analysis:\n" ++ rcaFieldS sh.rca_result (fun r => r.root_cause)
      ++ "\n\nFix Recommendation:\nN/A\n\nFIX PLAN:\n\nFix Summary: " ++ fr.fix_summary
      ++ "\n\nFiles To Modify: " ++ String.intercalate ", " fr.files_to_modify
      ++ "\n\nStep-by-Step Patch Plan:\n" ++ numberPlan fr.patch_plan
      ++ "\n\nSafety Considerations:\n" ++ fr.safety_considerations
      ++ "\n\nYOUR TASK:\n\n1. Call read_file tool with file_path=\"" ++ targetFileOf fr
      ++ "\" to get the complete original file\n2. After receiving the file content, apply the fix at line "
      ++ rcaLineS sh.rca_result
      ++ "\n3. Output the COMPLETE fixed file in JSON format with ONLY that specific line changed\n"

/-- The message list `patch_llm_node` sends to the model: the system prompt,
then the **entire accumulated transcript**, then the freshly rendered
instruction. -/
def patchRequest (s : PatchState) : List Message :=
  sysMsg PATCH_SYSTEM_PROMPT :: (s.messages ++ [humanMsg (patchFixText s.shared)])

/-- Substring search helper. -/
def strContainsAux (needle : List Char) : List Char → Bool
  | [] => needle.isEmpty
  | c :: rest => needle.isPrefixOf (c :: rest) || strContainsAux needle rest

/-- `needle in hay` for Python strings. -/
def strContains (hay needle : String) : Bool := strContainsAux needle.toList hay.toList

/-- `s.lower()`. -/
def strToLower (s : String) : String := String.mk (s.toList.map Char.toLower)

/-- Python whitespace, as `str.strip()` removes it. -/
def isPyWS (c : Char) : Bool := isPySpace c || c = '\n'

/-- `s.strip()`. -/
def pyStrip (s : String) : String :=
  String.mk (((s.toList.dropWhile isPyWS).reverse.dropWhile isPyWS).reverse)

/-- `"429" in error_msg or "quota" in error_msg.lower()`. -/
def isRateLimit (e : String) : Bool :=
  strContains e "429" || strContains (strToLower e) "quota"

/-- The `except` clause of `patch_llm_node`: rate-limit errors log
`patch_llm_rate_limited` and leave `patch_result` alone (the loop will retry);
every other exception logs `patch_generation_failed` and stores a failed
`patch_result`. Both return `"messages": []`. -/
def patchExceptState (s0 : PatchState) (iteration : Nat) (e : String) : PatchState :=
  if isRateLimit e then
    { s0 with history := s0.history
        ++ [{ event := "patch_llm_rate_limited", iteration := iteration, error := some e }] }
  else
    { s0 with
      shared := { s0.shared with patch_result := some { success := false, error := some e } }
      history := s0.history
        ++ [{ event := "patch_generation_failed", iteration := iteration, error := some e }] }

/-- The `agent_input` history entry `patch_llm_node` appends before invoking
the model (iteration already bumped). -/
def patchInputEntry (s : PatchState) : AuditEntry :=
  { event := "agent_input", agent := some "PatchAgent"
    iteration := s.shared.patch_iteration + 1
    content := some (patchFixText s.shared) }

/-- The state after `patch_llm_node`'s in-place mutations preceding the `try`
block: `patch_iteration` bumped and the `agent_input` entry logged. -/
def patchS0 (s : PatchState) : PatchState :=
  { s with
    shared := { s.shared with patch_iteration := s.shared.patch_iteration + 1 }
    history := s.history ++ [patchInputEntry s] }

/-- `patch_llm_node`: bump `patch_iteration` (mutated in place, so it survives
every branch), log `agent_input`, invoke the model with
`[System] + messages + [Human(fix_text)]`; tool-call responses are appended and
routed on; otherwise the text is parsed (`patch_parser` then
`patch_fixing_parser`, folded into `pp`), and the patch is written via
`create_patch_file` when a target file and non-empty code exist, else a failed
`patch_result` is stored; the `agent_output` entry carries the patched code and
the patch result. When `fix_result` was falsy the local `files_to_modify`
variable was never bound and its use raises `NameError` into the `except`
clause. See `patchInputEntry` and `patchS0` for the pre-`try` mutations. -/
def patch_llm_node (o : Oracle) (pp : String → Except String String)
    (s : PatchState) : PatchState :=
  let iteration := s.shared.patch_iteration + 1
  let s0 : PatchState := patchS0 s
  match o (patchRequest s0) with
  | .raise e => patchExceptState s0 iteration e
  | .ok response =>
    if !response.toolCalls.isEmpty then
      { s0 with messages := s0.messages ++ [response] }
    else
      match pp response.content with
      | .error e => patchExceptState s0 iteration e
      | .ok raw =>
        let patched_code := pyStrip raw
        match s0.shared.fix_result with
        | none => patchExceptState s0 iteration "name files_to_modify is not defined"
        | some fr =>
          let original? :=
            match fr.files_to_modify with
            | [] => none
            | original :: _ => if patched_code = "" then none else some original
          let prDir :=
            match original? with
            | some original => create_patch_file s0.patchesDir original patched_code
            | none =>
              ({ success := false, error := some "No files to modify or empty patch code" },
               s0.patchesDir)
          let hOut : AuditEntry :=
            { event := "agent_output", agent := some "PatchAgent", iteration := iteration
              content := some patched_code, patch_result := some prDir.1 }
          { s0 with
            messages := s0.messages ++ [response]
            shared := { s0.shared with patch_result := some prDir.1 }
            history := s0.history ++ [hOut]
            patchesDir := prDir.2 }

/-- One Patch-stage tool call: the produced `ToolMessage`, the `tool_call`
audit entry, and the updated shared memory / patches directory. -/
def patchToolStep (root : Option String) (fs : FileSystem) (iterationTag : Nat)
    (tc : ToolCall) (sh : PatchShared) (dir : FileSystem) :
    Message × AuditEntry × PatchShared × FileSystem :=
  if tc.name = "read_file" then
    let obs := read_file root fs (filePathArg tc.args)
    (toolMsg (readToolContent obs),
     { event := "tool_call", iteration := iterationTag, tool := some tc.name
       input := some tc.args, output := some (.read obs) },
     { sh with patch_file_loaded := true }, dir)
  else if tc.name = "check_dependency" then
    let obs := check_dependency root fs (filePathArg tc.args)
    (toolMsg (renderObs (.dep obs)),
     { event := "tool_call", iteration := iterationTag, tool := some tc.name
       input := some tc.args, output := some (.dep obs) },
     sh, dir)
  else if tc.name = "create_patch_file" then
    let prDir := create_patch_file dir ((tc.args.lookup "original_file_path").getD "")
      ((tc.args.lookup "fixed_content").getD "")
    let stored :=
      if prDir.1.success then prDir.1
      else { success := false, error := some (prDir.1.error.getD "Patch creation failed") }
    (toolMsg (renderObs (.patch prDir.1)),
     { event := "tool_call", iteration := iterationTag, tool := some tc.name
       input := some tc.args, output := some (.patch prDir.1) },
     { sh with patch_result := some stored }, prDir.2)
  else
    (toolMsg ("Unknown tool: " ++ tc.name),
     { event := "tool_call", iteration := iterationTag, tool := some tc.name
       input := some tc.args, output := some (.text ("Unknown tool: " ++ tc.name)) },
     sh, dir)

/-- Sequential execution of the tool calls of one response, in request order. -/
def patchToolExec (root : Option String) (fs : FileSystem) (iterationTag : Nat) :
    List ToolCall → PatchShared → FileSystem →
    List Message × List AuditEntry × PatchShared × FileSystem
  | [], sh, dir => ([], [], sh, dir)
  | tc :: rest, sh, dir =>
    let step := patchToolStep root fs iterationTag tc sh dir
    let next := patchToolExec root fs iterationTag rest step.2.2.1 step.2.2.2
    (step.1 :: next.1, step.2.1 :: next.2.1, next.2.2.1, next.2.2.2)

/-- `patch_tool_node`. -/
def patch_tool_node (root : Option String) (fs : FileSystem) (s : PatchState) :
    PatchState :=
  let last := lastMessage s.messages
  if last.toolCalls.isEmpty then s
  else
    let run := patchToolExec root fs s.shared.patch_iteration last.toolCalls s.shared s.patchesDir
    { messages := s.messages ++ run.1
      shared := run.2.2.1
      history := s.history ++ run.2.1
      patchesDir := run.2.2.2 }

/-- Number of transcript messages carrying at least one `read_file` tool call
(the stuck-loop detector's counter). -/
def readFileMsgCount (msgs : List Message) : Nat :=
  msgs.countP fun m => !m.toolCalls.isEmpty && m.toolCalls.any fun tc => tc.name == "read_file"

/-- The degraded result the stuck-loop detector stores. -/
def degradedPatchResult : PatchResult :=
  { success := false, error := some "Agent failed to generate patch after reading file" }

/-- `should_continue` of the Patch agent: a successful `patch_result` ends the
stage, then the iteration cap (5), then the stuck-`read_file` detector (which
mutates shared memory with the degraded result before ending), then pending
tool calls, else back to the model. Returns the route together with the
(possibly mutated) shared memory. -/
def patch_should_continue (s : PatchState) : StageRoute × PatchShared :=
  if (s.shared.patch_result.map fun pr => pr.success).getD false then (.done, s.shared)
  else if 5 ≤ s.shared.patch_iteration then (.done, s.shared)
  else if 3 ≤ s.messages.length ∧ 2 ≤ readFileMsgCount s.messages then
    (.done, { s.shared with patch_result := some degradedPatchResult })
  else
    match s.messages.getLast? with
    | some m => if !m.toolCalls.isEmpty then (.tools, s.shared) else (.llm, s.shared)
    | none => (.llm, s.shared)

/-- Terminal observation of a Patch run; `rounds` counts `patch_llm_node`
executions and `toolExecs` the executed tool calls. Nothing in the Patch stage
propagates exceptions (every node catches them), so there is no raised case. -/
inductive PatchOutcome where
  | finished (s : PatchState) (rounds toolExecs : Nat)
  | outOfFuel (s : PatchState) (rounds toolExecs : Nat)

/-- Tool calls pending on the last transcript message. -/
def toolCallsOfLast (s : PatchState) : List ToolCall := (lastMessage s.messages).toolCalls

/-- Replaces the shared memory of a Patch state (the effect of
`should_continue`'s in-place mutation becoming visible to the next node). -/
def withShared (s : PatchState) (sh : PatchShared) : PatchState :=
  { messages := s.messages, shared := sh, history := s.history, patchesDir := s.patchesDir }

/-- The compiled Patch graph, run with explicit fuel bounding `llm`
executions. -/
def patchRun (o : Oracle) (pp : String → Except String String)
    (root : Option String) (fs : FileSystem) :
    Nat → PatchState → Nat → Nat → PatchOutcome
  | 0, s, r, t => .outOfFuel s r t
  | n + 1, s, r, t =>
    let s1 := patch_llm_node o pp s
    match patch_should_continue s1 with
    | (.done, sh) => .finished (withShared s1 sh) (r + 1) t
    | (.tools, sh) =>
      patchRun o pp root fs n (patch_tool_node root fs (withShared s1 sh))
        (r + 1) (t + (toolCallsOfLast s1).length)
    | (.llm, sh) => patchRun o pp root fs n (withShared s1 sh) (r + 1) t

/-- True exactly on the fuel-exhaustion outcome. -/
def patchOutOfFuel : PatchOutcome → Prop
  | .outOfFuel _ _ _ => True
  | _ => False

/-- Final state of a Patch run. -/
def patchStateOf : PatchOutcome → PatchState
  | .finished s _ _ => s
  | .outOfFuel s _ _ => s

/-- Model round-trips performed in a Patch run. -/
def patchRoundsOf : PatchOutcome → Nat
  | .finished _ r _ => r
  | .outOfFuel _ r _ => r

/-- Executed tool calls in a Patch run. -/
def patchToolExecsOf : PatchOutcome → Nat
  | .finished _ _ t => t
  | .outOfFuel _ _ t => t

/-! ## Helper lemmas -/

theorem countEvent_nil (e : String) : countEvent e [] = 0 := rfl

theorem countEvent_cons (e : String) (a : AuditEntry) (h : List AuditEntry) :
    countEvent e (a :: h) = countEvent e h + (if a.event == e then 1 else 0) :=
  List.countP_cons _ _ _

theorem countEvent_append (e : String) (h1 h2 : List AuditEntry) :
    countEvent e (h1 ++ h2) = countEvent e h1 + countEvent e h2 :=
  List.countP_append _ _ _

theorem stripSlashes_slash (p : String) : stripSlashes ("/" ++ p) = stripSlashes p := by
  unfold stripSlashes
  have h : ("/" ++ p).toList = '/' :: p.toList := by
    show ("/" ++ p).data = '/' :: p.data
    rw [String.data_append]
    rfl
  rw [h]
  simp [List.dropWhile_cons]

theorem resolvedPath_slash (root p : String) :
    resolvedPath root ("/" ++ p) = resolvedPath root p := by
  unfold resolvedPath
  rw [stripSlashes_slash]

/-- C10: `read_file` resolves every input to
`abspath(join(CODEBASE_ROOT, file_path.lstrip('/')))`: a leading `/` on the
input is irrelevant to the resolved target (absolute inputs are reinterpreted
under the codebase root — the file outside the root is *not* read), while `..`
segments take effect and can resolve to files outside the root. -/
theorem read_file_resolves_under_root :
    (∀ root p, resolvedPath root ("/" ++ p) = resolvedPath root p)
  ∧ (∀ (root : String) (fs : FileSystem) (p : String),
      read_file (some root) fs ("/" ++ p)
        = { read_file (some root) fs p with file_path := "/" ++ p })
  ∧ resolvedPath "/repo" "../secret.txt" = "/secret.txt"
  ∧ read_file (some "/repo") [("/secret.txt", "top")] "../secret.txt"
      = { success := true, file_path := "../secret.txt"
          absolute_path := some "/secret.txt", content := some "top", lines := some 1 }
  ∧ read_file (some "/repo") [("/etc/passwd", "outside"), ("/repo/etc/passwd", "inside")]
      "/etc/passwd"
      = { success := true, file_path := "/etc/passwd"
          absolute_path := some "/repo/etc/passwd", content := some "inside"
          lines := some 1 } := by
  refine ⟨resolvedPath_slash, ?_, by decide, by decide, by decide⟩
  intro root fs p
  simp only [read_file, resolvedPath_slash]
  split
  · rfl
  · cases h : List.lookup (resolvedPath root p) fs <;> simp [h]

/-- C4: **refuted — code bug.** `check_dependency` can never report success:
its body passes the `read_file` result dictionary itself (not the file
content) to `re.findall`, which raises `TypeError` for every input path —
including paths that resolve to perfectly readable files, where the
specified behaviour would have been the deduplicated sorted import list
(exhibited by the last three conjuncts for a concrete readable file). -/
theorem check_dependency_never_succeeds :
    (∀ (root : Option String) (fs : FileSystem) (p : String),
        (check_dependency root fs p).success = false
      ∧ (check_dependency root fs p).python_dependencies = none
      ∧ (check_dependency root fs p).error = some "expected string or bytes-like object")
  ∧ (read_file (some "/repo") [("/repo/a.py", "import os\nfrom sys import path\n")]
      "a.py").success = true
  ∧ (read_file (some "/repo") [("/repo/a.py", "import os\nfrom sys import path\n")]
      "a.py").content = some "import os\nfrom sys import path\n"
  ∧ extractPythonImports "import os\nfrom sys import path\n" = ["os", "sys"]
  ∧ (check_dependency (some "/repo") [("/repo/a.py", "import os\nfrom sys import path\n")]
      "a.py").success = false :=
  ⟨fun _ _ _ => ⟨rfl, rfl, rfl⟩, by decide, by decide, by decide, by decide⟩

/-! ## Concrete fixtures used by witnesses and counterexamples -/

/-- A concrete RCA result (the Scenario A shape of the spec). -/
def wRCA : RCAOutput :=
  { error_type := "AttributeError"
    error_message := "User object has no attribute emails"
    root_cause := "The query references User.emails but the model defines email"
    affected_file := "services/user.py"
    affected_line := 18 }

/-- A concrete fix plan naming the RCA-reported file. -/
def wF : FixResult :=
  { fix_summary := "plan"
    files_to_modify := ["services/user.py"]
    patch_plan := ["step"]
    safety_considerations := "none" }

/-- A Fix-stage state as `workflow.fix_node` seeds it. -/
def wFixS : FixState :=
  { messages := [humanMsg "Generate fix plan based on RCA"]
    shared := { iteration := 0, rca_result := some wRCA }
    history := [] }

/-- A Patch-stage state as `workflow.patch_node` seeds it. -/
def wPatchS : PatchState :=
  { messages := [humanMsg "Generate patch using Fix Plan and tools"]
    shared := { patch_iteration := 0, rca_result := some wRCA, fix_result := some wF }
    history := []
    patchesDir := [] }

/-- An oracle that always requests one `read_file` call. -/
def wReadFileOracle : Oracle := fun _ =>
  .ok { role := .ai, content := ""
        toolCalls := [{ name := "read_file"
                        args := [("file_path", "services/user.py")], id := "1" }] }

/-- An oracle that always answers with plain text and no tool calls. -/
def wPlainOracle : Oracle := fun _ => .ok { role := .ai, content := "done" }

/-- A structured-output service that proposes a hallucinated file name. -/
def wHallucinatingSO : List Message → Except String FixResult := fun _ =>
  .ok { fix_summary := "plan", files_to_modify := ["hallucinated.py"]
        patch_plan := ["step"], safety_considerations := "none" }

/-- An always-raising completion service. -/
def wRaisingOracle : Oracle := fun _ => .raise "boom"

/-- A patch parser that always fails (never reached in the runs using it). -/
def wFailingPP : String → Except String String := fun _ => .error "nope"

/-- A Fix-stage state mid-conversation: the transcript holds the seed, a model
response requesting `read_file`, and the tool result. -/
def wFixSMid : FixState :=
  { messages := [humanMsg "Generate fix plan based on RCA",
      { role := .ai, content := ""
        toolCalls := [{ name := "read_file"
                        args := [("file_path", "services/user.py")], id := "1" }] },
      toolMsg "Successfully read file: services/user.py"]
    shared := { iteration := 1, rca_result := some wRCA }
    history := [] }

/-- C5 counterexample: the request the Fix stage sends to the model from a
mid-conversation state is **not** the system instruction followed by the
accumulated conversation — the prior model response and the tool-result
message are dropped (the rebuilt request has only two messages). -/
theorem fix_request_not_full_conversation :
    fixRequest wRCA ≠ sysMsg FIX_SYSTEM_PROMPT :: wFixSMid.messages := by decide

/-- C5 amended: the RCA and Patch stages do send the system instruction
followed by the full accumulated conversation (Patch appends the freshly
rendered stage input after it); the Fix stage instead rebuilds a two-message
request from the RCA result alone, discarding all prior model responses and
tool results. -/
theorem stage_request_construction :
    (∀ s : RCAState, rcaRequest s = sysMsg RCA_SYSTEM_PROMPT :: s.messages)
  ∧ (∀ s : PatchState, patchRequest s
      = sysMsg PATCH_SYSTEM_PROMPT :: (s.messages ++ [humanMsg (patchFixText s.shared)]))
  ∧ (∀ r : RCAOutput, fixRequest r = [sysMsg FIX_SYSTEM_PROMPT, humanMsg (fixAgentInput r)])
  ∧ (∀ r : RCAOutput, (fixRequest r).length = 2) :=
  ⟨fun _ => rfl, fun _ => rfl, fun _ => rfl, fun _ => rfl⟩

/-! ## Path lemmas for the patch writer -/

theorem splitOnChar_ne_nil (sep : Char) (l : List Char) : splitOnChar sep l ≠ [] := by
  induction l with
  | nil => simp [splitOnChar]
  | cons c rest ih =>
    unfold splitOnChar
    split
    · simp
    · cases h : splitOnChar sep rest with
      | nil => simp
      | cons g gs => simp

theorem mem_splitOnChar_not_sep (sep : Char) (l : List Char) :
    ∀ g ∈ splitOnChar sep l, sep ∉ g := by
  induction l with
  | nil =>
    intro g hg
    simp [splitOnChar] at hg
    simp [hg]
  | cons c rest ih =>
    intro g hg
    unfold splitOnChar at hg
    by_cases hc : c = sep
    · rw [if_pos hc] at hg
      rcases List.mem_cons.1 hg with rfl | hm
      · simp
      · exact ih g hm
    · rw [if_neg hc] at hg
      cases h : splitOnChar sep rest with
      | nil => exact absurd h (splitOnChar_ne_nil sep rest)
      | cons g0 gs =>
        rw [h] at hg
        rcases List.mem_cons.1 hg with rfl | hm
        · intro hsep
          rcases List.mem_cons.1 hsep with hce | hmem
          · exact hc hce.symm
          · exact ih g0 (h ▸ List.mem_cons_self g0 gs) hmem
        · exact ih g (h ▸ List.mem_cons_of_mem g0 hm)

theorem splitOnChar_append_sep (sep : Char) (p q : List Char) (hp : sep ∉ p) :
    splitOnChar sep (p ++ sep :: q) = p :: splitOnChar sep q := by
  induction p with
  | nil => simp [splitOnChar]
  | cons a as ih =>
    have ha : ¬ a = sep := fun h => hp (h ▸ List.mem_cons_self a as)
    have hp' : sep ∉ as := fun h => hp (List.mem_cons_of_mem _ h)
    show splitOnChar sep (a :: (as ++ sep :: q)) = (a :: as) :: splitOnChar sep q
    conv_lhs => rw [splitOnChar]
    rw [if_neg ha, ih hp']

theorem splitOnChar_no_sep (sep : Char) (l : List Char) (h : sep ∉ l) :
    splitOnChar sep l = [l] := by
  induction l with
  | nil => rfl
  | cons a as ih =>
    have ha : ¬ a = sep := fun hh => h (hh ▸ List.mem_cons_self a as)
    have h' : sep ∉ as := fun hh => h (List.mem_cons_of_mem _ hh)
    unfold splitOnChar
    rw [if_neg ha, ih h']

theorem pathNameAux_no_slash (l : List Char) : '/' ∉ pathNameAux l := by
  unfold pathNameAux
  cases h : ((splitOnChar '/' l).filter fun g => !(g == [] || g == ['.'])).getLast? with
  | none => simp
  | some g =>
    simp only [Option.getD_some]
    obtain ⟨ys, hys⟩ := List.getLast?_eq_some_iff.1 h
    have hmem : g ∈ (splitOnChar '/' l).filter fun g => !(g == [] || g == ['.']) := by
      rw [hys]
      exact List.mem_append.2 (Or.inr (List.mem_cons_self g []))
    exact mem_splitOnChar_not_sep '/' l g (List.mem_of_mem_filter hmem)

theorem pathNameAux_patches (b : List Char) (hb : '/' ∉ b) :
    pathNameAux ("patches/fixed_".toList ++ b) = "fixed_".toList ++ b := by
  have h1 : "patches/fixed_".toList ++ b
      = "patches".toList ++ '/' :: ("fixed_".toList ++ b) := by
    rw [show "patches/fixed_".toList = "patches".toList ++ '/' :: "fixed_".toList by decide]
    simp
  have hfb : '/' ∉ "fixed_".toList ++ b := by
    intro h
    rcases List.mem_append.1 h with h | h
    · exact absurd h (by decide)
    · exact hb h
  unfold pathNameAux
  rw [h1, splitOnChar_append_sep _ _ _ (by decide), splitOnChar_no_sep _ _ hfb]
  rfl

theorem patch_path_ne_original (original : String) :
    "patches/fixed_" ++ pathName original ≠ original := by
  intro heq
  have hb : '/' ∉ pathNameAux original.toList := pathNameAux_no_slash _
  have hdata : ("patches/fixed_" ++ pathName original).toList
      = "patches/fixed_".toList ++ pathNameAux original.toList := by
    show ("patches/fixed_" ++ pathName original).data
      = "patches/fixed_".data ++ pathNameAux original.data
    rw [String.data_append]
    rfl
  have h2 : pathNameAux (("patches/fixed_" ++ pathName original).toList)
      = "fixed_".toList ++ pathNameAux original.toList := by
    rw [hdata]
    exact pathNameAux_patches _ hb
  rw [heq] at h2
  have hlen := congrArg List.length h2
  rw [List.length_append] at hlen
  simp at hlen

theorem patches_prefix_assoc (x : String) :
    "patches/" ++ ("fixed_" ++ x) = "patches/fixed_" ++ x := by
  apply String.ext
  rw [String.data_append, String.data_append, String.data_append]
  rw [← List.append_assoc]
  rw [show "patches/".data ++ "fixed_".data = "patches/fixed_".data from by decide]

/-- C9: every `create_patch_file(original, fixed_content)` call succeeds onto
the side location `patches/fixed_<basename(original)>`, writes `fixed_content`
verbatim there, reports the UTF-8 byte size and `split('\n')` line count, and
the written path never equals the original source path. -/
theorem create_patch_file_spec (dir : FileSystem) (original fixed : String) :
    (create_patch_file dir original fixed).1.success = true
  ∧ (create_patch_file dir original fixed).1.patch_file
      = some ("patches/fixed_" ++ pathName original)
  ∧ ((create_patch_file dir original fixed).2).lookup
      ("patches/" ++ ("fixed_" ++ pathName original)) = some fixed
  ∧ (create_patch_file dir original fixed).1.size_bytes = some fixed.utf8ByteSize
  ∧ (create_patch_file dir original fixed).1.lines = some (pyLineCount fixed)
  ∧ (create_patch_file dir original fixed).1.patch_file ≠ some original := by
  refine ⟨rfl, ?_, ?_, rfl, rfl, ?_⟩
  · exact congrArg some (patches_prefix_assoc _)
  · show List.lookup ("patches/" ++ ("fixed_" ++ pathName original))
      (("patches/" ++ ("fixed_" ++ pathName original), fixed)
        :: dir) = some fixed
    simp [List.lookup]
  · intro h
    have h2 : some ("patches/" ++ ("fixed_" ++ pathName original)) = some original := h
    have h3 := Option.some.inj h2
    rw [patches_prefix_assoc] at h3
    exact patch_path_ne_original original h3

/-! ## The Fix stage forces `files_to_modify` (C1) -/

theorem fix_tool_node_shared (root : Option String) (fs : FileSystem) (s : FixState) :
    (fix_tool_node root fs s).shared = s.shared := by
  simp only [fix_tool_node]
  split <;> rfl

theorem fix_llm_node_inv (o : Oracle) (so : List Message → Except String FixResult)
    (s s1 : FixState) (r : RCAOutput)
    (hr : s.shared.rca_result = some r)
    (hf : ∀ f, s.shared.fix_result = some f → f.files_to_modify = [r.affected_file])
    (heq : fix_llm_node o so s = Except.ok s1) :
    s1.shared.rca_result = some r
  ∧ ∀ f, s1.shared.fix_result = some f → f.files_to_modify = [r.affected_file] := by
  unfold fix_llm_node at heq
  rw [hr] at heq
  simp only at heq
  cases ho : o (fixRequest r) with
  | raise e =>
    rw [ho] at heq
    simp only at heq
    cases heq
    refine ⟨hr, fun f hsome => ?_⟩
    simp only [Option.some.injEq] at hsome
    rw [← hsome]
    rfl
  | ok toolCheck =>
    rw [ho] at heq
    simp only at heq
    by_cases htc : toolCheck.toolCalls.isEmpty
    · rw [if_pos htc] at heq
      cases hso : so (fixRequest r) with
      | error e =>
        rw [hso] at heq
        simp only at heq
        cases heq
        refine ⟨hr, fun f hsome => ?_⟩
        simp only [Option.some.injEq] at hsome
        rw [← hsome]
        rfl
      | ok structuredFix =>
        rw [hso] at heq
        simp only at heq
        cases heq
        refine ⟨hr, fun f hsome => ?_⟩
        simp only [Option.some.injEq] at hsome
        rw [← hsome]
    · rw [if_neg htc] at heq
      cases heq
      exact ⟨hr, hf⟩

theorem fixRun_files_inv (o : Oracle) (so : List Message → Except String FixResult)
    (root : Option String) (fs : FileSystem) :
    ∀ (n : Nat) (s : FixState) (r₀ : Nat) (r : RCAOutput),
      s.shared.rca_result = some r →
      (∀ f, s.shared.fix_result = some f → f.files_to_modify = [r.affected_file]) →
      ∀ f, fixResultOf (fixRun o so root fs n s r₀) = some f →
        f.files_to_modify = [r.affected_file] := by
  intro n
  induction n with
  | zero =>
    intro s r₀ r _ hf f hres
    exact hf f hres
  | succ n ih =>
    intro s r₀ r hr hf f hres
    rw [fixRun] at hres
    cases heq : fix_llm_node o so s with
    | error e =>
      rw [heq] at hres
      simp only [fixResultOf] at hres
      cases hres
    | ok s1 =>
      rw [heq] at hres
      simp only at hres
      obtain ⟨hr1, hf1⟩ := fix_llm_node_inv o so s s1 r hr hf heq
      cases hroute : fix_should_continue s1 with
      | done =>
        rw [hroute] at hres
        exact hf1 f hres
      | tools =>
        rw [hroute] at hres
        refine ih (fix_tool_node root fs s1) (r₀ + 1) r ?_ ?_ f hres
        · rw [fix_tool_node_shared]; exact hr1
        · intro g hg
          rw [fix_tool_node_shared] at hg
          exact hf1 g hg
      | llm =>
        rw [hroute] at hres
        exact ih s1 (r₀ + 1) r hr1 hf1 f hres

/-- C1: whenever an RCA result is present in shared memory, any `fix_result`
a Fix-stage run produces has `files_to_modify = [rca_result.affected_file]`
exactly — the structured-output path overwrites the model's proposal and the
exception fallback path builds the list from the RCA result directly. -/
theorem fix_files_to_modify_forced (o : Oracle)
    (so : List Message → Except String FixResult) (root : Option String)
    (fs : FileSystem) (n r₀ : Nat) (s : FixState) (r : RCAOutput)
    (hrca : s.shared.rca_result = some r)
    (hinit : s.shared.fix_result = none) :
    ∀ f, fixResultOf (fixRun o so root fs n s r₀) = some f →
      f.files_to_modify = [r.affected_file] := by
  refine fixRun_files_inv o so root fs n s r₀ r hrca ?_
  intro f hsome
  rw [hinit] at hsome
  cases hsome

/-- C1 witness: a concrete run in which the structured output proposed
`["hallucinated.py"]` and the recorded fix plan nevertheless names exactly the
RCA-reported file. -/
theorem fix_files_to_modify_forced_witness :
    wFixS.shared.rca_result = some wRCA
  ∧ wFixS.shared.fix_result = none
  ∧ (fixResultOf (fixRun wPlainOracle wHallucinatingSO (some "/repo") [] 3 wFixS 0)).map
      (fun f => f.files_to_modify) = some ["services/user.py"] := by
  refine ⟨rfl, rfl, ?_⟩
  have h := fix_files_to_modify_forced wPlainOracle wHallucinatingSO (some "/repo") [] 3 0
    wFixS wRCA rfl rfl wF rfl
  rw [show fixResultOf (fixRun wPlainOracle wHallucinatingSO (some "/repo") [] 3 wFixS 0)
      = some wF from rfl]
  rw [Option.map_some', h]
  rfl

/-! ## Termination within the iteration caps (C2) -/

theorem rca_llm_node_iteration (o : Oracle) (parseRCA : String → Except String RCAOutput)
    (s s1 : RCAState) (heq : rca_llm_node o parseRCA s = Except.ok s1) :
    s1.shared.iteration = s.shared.iteration + 1 := by
  unfold rca_llm_node at heq
  simp only at heq
  cases ho : o (rcaRequest s) with
  | raise e => rw [ho] at heq; cases heq
  | ok response =>
    rw [ho] at heq
    simp only at heq
    by_cases htc : response.toolCalls.isEmpty
    · rw [if_pos htc] at heq
      cases hp : parseRCA response.content with
      | error e => rw [hp] at heq; cases heq
      | ok rca => rw [hp] at heq; cases heq; rfl
    · rw [if_neg htc] at heq; cases heq; rfl

theorem rca_tool_node_shared (root : Option String) (fs : FileSystem)
    (gpd : List (String × String) → ToolObs) (s : RCAState) :
    (rca_tool_node root fs gpd s).shared = s.shared := by
  simp only [rca_tool_node]
  split <;> rfl

theorem rca_route_lt (s : RCAState) (h : rca_should_continue s ≠ .done) :
    s.shared.iteration < 5 := by
  by_contra hge
  apply h
  unfold rca_should_continue
  rw [if_pos (Nat.le_of_not_lt hge)]

theorem fix_llm_node_iteration (o : Oracle) (so : List Message → Except String FixResult)
    (s s1 : FixState) (heq : fix_llm_node o so s = Except.ok s1) :
    s1.shared.iteration = s.shared.iteration + 1 := by
  unfold fix_llm_node at heq
  cases hr : s.shared.rca_result with
  | none => rw [hr] at heq; cases heq
  | some r =>
    rw [hr] at heq
    simp only at heq
    cases ho : o (fixRequest r) with
    | raise e => rw [ho] at heq; cases heq; rfl
    | ok toolCheck =>
      rw [ho] at heq
      simp only at heq
      by_cases htc : toolCheck.toolCalls.isEmpty
      · rw [if_pos htc] at heq
        cases hso : so (fixRequest r) with
        | error e => rw [hso] at heq; cases heq; rfl
        | ok structuredFix => rw [hso] at heq; cases heq; rfl
      · rw [if_neg htc] at heq; cases heq; rfl

theorem fix_route_lt (s : FixState) (h : fix_should_continue s ≠ .done) :
    s.shared.iteration < 3 := by
  by_contra hge
  apply h
  unfold fix_should_continue
  by_cases hs : s.shared.fix_result.isSome
  · rw [if_pos hs]
  · rw [if_neg hs, if_pos (Nat.le_of_not_lt hge)]

theorem patchToolStep_iteration (root : Option String) (fs : FileSystem) (i : Nat)
    (tc : ToolCall) (sh : PatchShared) (dir : FileSystem) :
    ((patchToolStep root fs i tc sh dir).2.2.1).patch_iteration = sh.patch_iteration := by
  unfold patchToolStep
  split
  · rfl
  · split
    · rfl
    · split <;> rfl

theorem patchToolExec_iteration (root : Option String) (fs : FileSystem) (i : Nat) :
    ∀ (calls : List ToolCall) (sh : PatchShared) (dir : FileSystem),
      ((patchToolExec root fs i calls sh dir).2.2.1).patch_iteration = sh.patch_iteration := by
  intro calls
  induction calls with
  | nil => intro sh dir; rfl
  | cons tc rest ih =>
    intro sh dir
    show ((patchToolExec root fs i rest (patchToolStep root fs i tc sh dir).2.2.1
      (patchToolStep root fs i tc sh dir).2.2.2).2.2.1).patch_iteration = sh.patch_iteration
    rw [ih, patchToolStep_iteration]

theorem patch_tool_node_iteration (root : Option String) (fs : FileSystem) (s : PatchState) :
    (patch_tool_node root fs s).shared.patch_iteration = s.shared.patch_iteration := by
  simp only [patch_tool_node]
  split
  · rfl
  · exact patchToolExec_iteration root fs _ _ _ _

theorem patch_llm_node_iteration (o : Oracle) (pp : String → Except String String)
    (s : PatchState) :
    (patch_llm_node o pp s).shared.patch_iteration = s.shared.patch_iteration + 1 := by
  unfold patch_llm_node patchExceptState
  dsimp only
  repeat' split
  all_goals rfl

theorem patch_route_lt (s : PatchState) (h : (patch_should_continue s).1 ≠ .done) :
    s.shared.patch_iteration < 5 := by
  by_contra hge
  apply h
  unfold patch_should_continue
  by_cases hs : (Option.map (fun pr => pr.success) s.shared.patch_result).getD false
  · rw [if_pos hs]
  · rw [if_neg hs, if_pos (Nat.le_of_not_lt hge)]

theorem rcaRun_fuel (o : Oracle) (parseRCA : String → Except String RCAOutput)
    (root : Option String) (fs : FileSystem) (gpd : List (String × String) → ToolObs) :
    ∀ (n : Nat) (s : RCAState) (r₀ : Nat), 1 ≤ n → 5 ≤ s.shared.iteration + n →
      ¬ rcaOutOfFuel (rcaRun o parseRCA root fs gpd n s r₀) := by
  intro n
  induction n with
  | zero => intro s r₀ h1 _; exact absurd h1 (by omega)
  | succ n ih =>
    intro s r₀ _ h5
    rw [rcaRun]
    cases heq : rca_llm_node o parseRCA s with
    | error e => simp [rcaOutOfFuel]
    | ok s1 =>
      simp only
      have hit := rca_llm_node_iteration o parseRCA s s1 heq
      cases hroute : rca_should_continue s1 with
      | done => simp [rcaOutOfFuel]
      | tools =>
        have hlt : s1.shared.iteration < 5 :=
          rca_route_lt s1 (by rw [hroute]; intro hc; cases hc)
        apply ih
        · omega
        · rw [rca_tool_node_shared]; omega
      | llm =>
        have hlt : s1.shared.iteration < 5 :=
          rca_route_lt s1 (by rw [hroute]; intro hc; cases hc)
        apply ih <;> omega

theorem fixRun_fuel (o : Oracle) (so : List Message → Except String FixResult)
    (root : Option String) (fs : FileSystem) :
    ∀ (n : Nat) (s : FixState) (r₀ : Nat), 1 ≤ n → 3 ≤ s.shared.iteration + n →
      ¬ fixOutOfFuel (fixRun o so root fs n s r₀) := by
  intro n
  induction n with
  | zero => intro s r₀ h1 _; exact absurd h1 (by omega)
  | succ n ih =>
    intro s r₀ _ h3
    rw [fixRun]
    cases heq : fix_llm_node o so s with
    | error e => simp [fixOutOfFuel]
    | ok s1 =>
      simp only
      have hit := fix_llm_node_iteration o so s s1 heq
      cases hroute : fix_should_continue s1 with
      | done => simp [fixOutOfFuel]
      | tools =>
        have hlt : s1.shared.iteration < 3 :=
          fix_route_lt s1 (by rw [hroute]; intro hc; cases hc)
        apply ih
        · omega
        · rw [fix_tool_node_shared]; omega
      | llm =>
        have hlt : s1.shared.iteration < 3 :=
          fix_route_lt s1 (by rw [hroute]; intro hc; cases hc)
        apply ih <;> omega

theorem patch_should_continue_shared_iteration (s : PatchState) :
    ((patch_should_continue s).2).patch_iteration = s.shared.patch_iteration := by
  unfold patch_should_continue
  repeat' split
  all_goals rfl

theorem patchRun_fuel (o : Oracle) (pp : String → Except String String)
    (root : Option String) (fs : FileSystem) :
    ∀ (n : Nat) (s : PatchState) (r₀ t₀ : Nat), 1 ≤ n → 5 ≤ s.shared.patch_iteration + n →
      ¬ patchOutOfFuel (patchRun o pp root fs n s r₀ t₀) := by
  intro n
  induction n with
  | zero => intro s r₀ t₀ h1 _; exact absurd h1 (by omega)
  | succ n ih =>
    intro s r₀ t₀ _ h5
    rw [patchRun]
    have hit := patch_llm_node_iteration o pp s
    cases hroute : patch_should_continue (patch_llm_node o pp s) with
    | mk route sh =>
      have hsh : sh.patch_iteration = (patch_llm_node o pp s).shared.patch_iteration := by
        have h := patch_should_continue_shared_iteration (patch_llm_node o pp s)
        rw [hroute] at h
        exact h
      cases route with
      | done => simp only [hroute]; simp [patchOutOfFuel]
      | tools =>
        simp only [hroute]
        have hlt : (patch_llm_node o pp s).shared.patch_iteration < 5 :=
          patch_route_lt _ (by rw [hroute]; intro hc; cases hc)
        apply ih
        · omega
        · show 5 ≤ (patch_tool_node root fs
            (withShared (patch_llm_node o pp s) sh)).shared.patch_iteration + n
          rw [patch_tool_node_iteration]
          show 5 ≤ sh.patch_iteration + n
          omega
      | llm =>
        simp only [hroute]
        have hlt : (patch_llm_node o pp s).shared.patch_iteration < 5 :=
          patch_route_lt _ (by rw [hroute]; intro hc; cases hc)
        apply ih
        · omega
        · show 5 ≤ sh.patch_iteration + n
          omega

/-- An external parser chain that always succeeds with the fixture RCA output. -/
def wParse : String → Except String RCAOutput := fun _ => .ok wRCA

/-- An external `get_project_directory` observation. -/
def wGpd : List (String × String) → ToolObs := fun _ => .text "project directory listing"

/-- An RCA-stage state as `workflow.rca_node` seeds it. -/
def wRCAS : RCAState :=
  { messages := [humanMsg "trace text"], shared := { iteration := 0 }, history := [] }

/-- An RCA-stage state whose iteration counter sits at the cap, with tool calls
still pending on the last message. -/
def wRCAS5 : RCAState :=
  { messages := [{ role := .ai, content := "",
                   toolCalls := [{ name := "read_file", args := [("file_path", "x")],
                                   id := "9" }] }]
    shared := { iteration := 5 }, history := [] }

/-- A Fix-stage state at the cap with pending tool calls. -/
def wFixS3 : FixState :=
  { messages := [{ role := .ai, content := "",
                   toolCalls := [{ name := "read_file", args := [("file_path", "x")],
                                   id := "9" }] }]
    shared := { iteration := 3, rca_result := some wRCA }, history := [] }

/-- A Patch-stage state at the cap with pending tool calls. -/
def wPatchS5 : PatchState :=
  { messages := [{ role := .ai, content := "",
                   toolCalls := [{ name := "read_file", args := [("file_path", "x")],
                                   id := "9" }] }]
    shared := { patch_iteration := 5, rca_result := some wRCA, fix_result := some wF }
    history := [], patchesDir := [] }

/-- C2: every stage loop reaches a terminal outcome within its iteration cap of
model round-trips (RCA 5, Fix 3, Patch 5) for **every** completion service,
parser chain, tool environment, and seed state — in particular when the model
requests tools on every round-trip; and each `should_continue` returns the
terminal route at the cap no matter what tool calls are pending. -/
theorem agent_loops_terminate_within_caps :
    (∀ (o : Oracle) (parseRCA : String → Except String RCAOutput) (root : Option String)
        (fs : FileSystem) (gpd : List (String × String) → ToolObs) (s : RCAState) (r₀ : Nat),
        s.shared.iteration = 0 → ¬ rcaOutOfFuel (rcaRun o parseRCA root fs gpd 5 s r₀))
  ∧ (∀ (o : Oracle) (so : List Message → Except String FixResult) (root : Option String)
        (fs : FileSystem) (s : FixState) (r₀ : Nat),
        s.shared.iteration = 0 → ¬ fixOutOfFuel (fixRun o so root fs 3 s r₀))
  ∧ (∀ (o : Oracle) (pp : String → Except String String) (root : Option String)
        (fs : FileSystem) (s : PatchState) (r₀ t₀ : Nat),
        s.shared.patch_iteration = 0 → ¬ patchOutOfFuel (patchRun o pp root fs 5 s r₀ t₀))
  ∧ (∀ s : RCAState, 5 ≤ s.shared.iteration → rca_should_continue s = .done)
  ∧ (∀ s : FixState, 3 ≤ s.shared.iteration → fix_should_continue s = .done)
  ∧ (∀ s : PatchState, 5 ≤ s.shared.patch_iteration →
        (patch_should_continue s).1 = .done) := by
  refine ⟨?_, ?_, ?_, ?_, ?_, ?_⟩
  · intro o parseRCA root fs gpd s r₀ h0
    exact rcaRun_fuel o parseRCA root fs gpd 5 s r₀ (by omega) (by omega)
  · intro o so root fs s r₀ h0
    exact fixRun_fuel o so root fs 3 s r₀ (by omega) (by omega)
  · intro o pp root fs s r₀ t₀ h0
    exact patchRun_fuel o pp root fs 5 s r₀ t₀ (by omega) (by omega)
  · intro s h
    unfold rca_should_continue
    rw [if_pos h]
  · intro s h
    unfold fix_should_continue
    by_cases hs : s.shared.fix_result.isSome
    · rw [if_pos hs]
    · rw [if_neg hs, if_pos h]
  · intro s h
    unfold patch_should_continue
    by_cases hs : (Option.map (fun pr => pr.success) s.shared.patch_result).getD false
    · rw [if_pos hs]
    · rw [if_neg hs, if_pos h]

/-- C2 witness: the caps hold on concrete runs in which the model requests a
`read_file` call on every round-trip, and the cap routes end the loop at
states with pending tool calls. -/
theorem agent_loops_terminate_within_caps_witness :
    ¬ rcaOutOfFuel (rcaRun wReadFileOracle wParse (some "/repo") [] wGpd 5 wRCAS 0)
  ∧ ¬ fixOutOfFuel (fixRun wReadFileOracle wHallucinatingSO (some "/repo") [] 3 wFixS 0)
  ∧ ¬ patchOutOfFuel (patchRun wReadFileOracle wFailingPP (some "/repo") [] 5 wPatchS 0 0)
  ∧ rca_should_continue wRCAS5 = .done
  ∧ fix_should_continue wFixS3 = .done
  ∧ (patch_should_continue wPatchS5).1 = .done := by
  obtain ⟨h1, h2, h3, h4, h5, h6⟩ := agent_loops_terminate_within_caps
  exact ⟨h1 _ _ _ _ _ wRCAS 0 rfl, h2 _ _ _ _ wFixS 0 rfl, h3 _ _ _ _ wPatchS 0 0 rfl,
    h4 wRCAS5 (by decide), h5 wFixS3 (by decide), h6 wPatchS5 (by decide)⟩

/-! ## Audit-log structure (C3) -/

/-- The `tool_call` audit entry one Patch-stage tool call produces (the entry is
independent of the shared memory and of the patches directory the call runs
against). -/
def patchToolEntryOf (root : Option String) (fs : FileSystem) (iterationTag : Nat)
    (tc : ToolCall) : AuditEntry :=
  if tc.name = "read_file" then
    { event := "tool_call", iteration := iterationTag, tool := some tc.name
      input := some tc.args, output := some (.read (read_file root fs (filePathArg tc.args))) }
  else if tc.name = "check_dependency" then
    { event := "tool_call", iteration := iterationTag, tool := some tc.name
      input := some tc.args
      output := some (.dep (check_dependency root fs (filePathArg tc.args))) }
  else if tc.name = "create_patch_file" then
    { event := "tool_call", iteration := iterationTag, tool := some tc.name
      input := some tc.args
      output := some (.patch (create_patch_file [] ((tc.args.lookup "original_file_path").getD "")
        ((tc.args.lookup "fixed_content").getD "")).1) }
  else
    { event := "tool_call", iteration := iterationTag, tool := some tc.name
      input := some tc.args, output := some (.text ("Unknown tool: " ++ tc.name)) }

theorem patchToolEntryOf_event (root : Option String) (fs : FileSystem) (i : Nat)
    (tc : ToolCall) : (patchToolEntryOf root fs i tc).event = "tool_call" := by
  unfold patchToolEntryOf
  repeat' split
  all_goals rfl

theorem patchToolStep_entry (root : Option String) (fs : FileSystem) (i : Nat)
    (tc : ToolCall) (sh : PatchShared) (dir : FileSystem) :
    (patchToolStep root fs i tc sh dir).2.1 = patchToolEntryOf root fs i tc := by
  unfold patchToolStep patchToolEntryOf
  repeat' split
  all_goals rfl

theorem patchToolExec_history (root : Option String) (fs : FileSystem) (i : Nat) :
    ∀ (calls : List ToolCall) (sh : PatchShared) (dir : FileSystem),
      (patchToolExec root fs i calls sh dir).2.1 = calls.map (patchToolEntryOf root fs i) := by
  intro calls
  induction calls with
  | nil => intro sh dir; rfl
  | cons tc rest ih =>
    intro sh dir
    show (patchToolStep root fs i tc sh dir).2.1
        :: (patchToolExec root fs i rest (patchToolStep root fs i tc sh dir).2.2.1
            (patchToolStep root fs i tc sh dir).2.2.2).2.1
      = patchToolEntryOf root fs i tc :: rest.map (patchToolEntryOf root fs i)
    rw [patchToolStep_entry, ih]

theorem patch_tool_node_history (root : Option String) (fs : FileSystem) (s : PatchState) :
    (patch_tool_node root fs s).history
      = s.history ++ (lastMessage s.messages).toolCalls.map
          (patchToolEntryOf root fs s.shared.patch_iteration) := by
  simp only [patch_tool_node]
  split
  · next hempty =>
    rw [List.isEmpty_iff] at hempty
    rw [hempty]
    simp
  · exact congrArg (s.history ++ ·) (patchToolExec_history root fs _ _ _ _)

theorem patch_tool_node_counts (root : Option String) (fs : FileSystem) (s : PatchState) :
    countEvent "agent_input" (patch_tool_node root fs s).history
      = countEvent "agent_input" s.history
  ∧ countEvent "agent_output" (patch_tool_node root fs s).history
      = countEvent "agent_output" s.history
  ∧ countEvent "tool_call" (patch_tool_node root fs s).history
      = countEvent "tool_call" s.history + (lastMessage s.messages).toolCalls.length := by
  rw [patch_tool_node_history, countEvent_append, countEvent_append, countEvent_append]
  refine ⟨?_, ?_, ?_⟩
  · have h0 : countEvent "agent_input"
        ((lastMessage s.messages).toolCalls.map (patchToolEntryOf root fs s.shared.patch_iteration)) = 0 := by
      rw [countEvent, List.countP_eq_zero]
      intro a ha
      obtain ⟨tc, _, rfl⟩ := List.mem_map.1 ha
      simp [patchToolEntryOf_event]
    omega
  · have h0 : countEvent "agent_output"
        ((lastMessage s.messages).toolCalls.map (patchToolEntryOf root fs s.shared.patch_iteration)) = 0 := by
      rw [countEvent, List.countP_eq_zero]
      intro a ha
      obtain ⟨tc, _, rfl⟩ := List.mem_map.1 ha
      simp [patchToolEntryOf_event]
    omega
  · have hall : countEvent "tool_call"
        ((lastMessage s.messages).toolCalls.map (patchToolEntryOf root fs s.shared.patch_iteration))
        = (lastMessage s.messages).toolCalls.length := by
      rw [countEvent, ← List.length_map (lastMessage s.messages).toolCalls
        (patchToolEntryOf root fs s.shared.patch_iteration), List.countP_eq_length]
      intro a ha
      obtain ⟨tc, _, rfl⟩ := List.mem_map.1 ha
      simp [patchToolEntryOf_event]
    omega


theorem patch_llm_node_counts (o : Oracle) (pp : String → Except String String)
    (s : PatchState) :
    countEvent "agent_input" (patch_llm_node o pp s).history
      = countEvent "agent_input" s.history + 1
  ∧ countEvent "tool_call" (patch_llm_node o pp s).history
      = countEvent "tool_call" s.history
  ∧ countEvent "agent_output" (patch_llm_node o pp s).history
      ≤ countEvent "agent_output" s.history + 1 := by
  have hS0AI : countEvent "agent_input" (patchS0 s).history
      = countEvent "agent_input" s.history + 1 := by
    unfold patchS0 patchInputEntry
    simp [countEvent_append, countEvent_cons, countEvent_nil]
  have hS0TC : countEvent "tool_call" (patchS0 s).history
      = countEvent "tool_call" s.history := by
    unfold patchS0 patchInputEntry
    simp [countEvent_append, countEvent_cons, countEvent_nil]
  have hS0AO : countEvent "agent_output" (patchS0 s).history
      = countEvent "agent_output" s.history := by
    unfold patchS0 patchInputEntry
    simp [countEvent_append, countEvent_cons, countEvent_nil]
  simp only [patch_llm_node, patchExceptState]
  cases ho : o (patchRequest (patchS0 s))
  all_goals repeat' split
  all_goals simp [countEvent_append, countEvent_cons, countEvent_nil, hS0AI, hS0TC, hS0AO]


theorem withShared_history (s : PatchState) (sh : PatchShared) :
    (withShared s sh).history = s.history := rfl

theorem withShared_messages (s : PatchState) (sh : PatchShared) :
    (withShared s sh).messages = s.messages := rfl

theorem withShared_shared (s : PatchState) (sh : PatchShared) :
    (withShared s sh).shared = sh := rfl

theorem patchRun_counts (o : Oracle) (pp : String → Except String String)
    (root : Option String) (fs : FileSystem) :
    ∀ (n : Nat) (s : PatchState) (r t : Nat),
      (countEvent "agent_input" (patchStateOf (patchRun o pp root fs n s r t)).history + r
        = countEvent "agent_input" s.history + patchRoundsOf (patchRun o pp root fs n s r t))
    ∧ (countEvent "tool_call" (patchStateOf (patchRun o pp root fs n s r t)).history + t
        = countEvent "tool_call" s.history + patchToolExecsOf (patchRun o pp root fs n s r t))
    ∧ (countEvent "agent_output" (patchStateOf (patchRun o pp root fs n s r t)).history + r
        ≤ countEvent "agent_output" s.history
            + patchRoundsOf (patchRun o pp root fs n s r t)) := by
  intro n
  induction n with
  | zero => intro s r t; exact ⟨rfl, rfl, le_rfl⟩
  | succ n ih =>
    intro s r t
    obtain ⟨hAI, hTC, hAO⟩ := patch_llm_node_counts o pp s
    rw [patchRun]
    cases hroute : patch_should_continue (patch_llm_node o pp s) with
    | mk route sh =>
      cases route with
      | done =>
        simp only [patchStateOf, patchRoundsOf, patchToolExecsOf, withShared_history]
        refine ⟨by omega, by omega, by omega⟩
      | tools =>
        simp only
        obtain ⟨iAI, iTC, iAO⟩ := ih (patch_tool_node root fs
          (withShared (patch_llm_node o pp s) sh)) (r + 1)
          (t + (toolCallsOfLast (patch_llm_node o pp s)).length)
        obtain ⟨tAI, tAO, tTC⟩ := patch_tool_node_counts root fs
          (withShared (patch_llm_node o pp s) sh)
        rw [withShared_history] at tAI tAO tTC
        rw [withShared_messages] at tTC
        rw [show (lastMessage (patch_llm_node o pp s).messages).toolCalls
            = toolCallsOfLast (patch_llm_node o pp s) from rfl] at tTC
        refine ⟨by omega, by omega, by omega⟩
      | llm =>
        simp only
        obtain ⟨iAI, iTC, iAO⟩ := ih (withShared (patch_llm_node o pp s) sh) (r + 1) t
        rw [withShared_history] at iAI iTC iAO
        refine ⟨by omega, by omega, by omega⟩

/-- C3 counterexample: a Fix-stage run in which the model requests tools on
every round-trip records three `agent_input` entries but zero `agent_output`
entries — the `agent_input`/`agent_output` counts do not both equal the number
of model round-trips. -/
theorem fix_audit_pairs_counterexample :
    countEvent "agent_input" (fixHistoryOf (fixRun wReadFileOracle wHallucinatingSO
      (some "/repo") [("/repo/services/user.py", "email")] 3 wFixS 0)) = 3
  ∧ countEvent "agent_output" (fixHistoryOf (fixRun wReadFileOracle wHallucinatingSO
      (some "/repo") [("/repo/services/user.py", "email")] 3 wFixS 0)) = 0 := by
  exact ⟨rfl, rfl⟩

/-- C3 amended: in the Patch stage every model round-trip appends exactly one
`agent_input` entry, every executed tool call appends exactly one `tool_call`
entry carrying its input arguments and its output payload, but `agent_output`
entries are appended only on round-trips whose response carries no tool calls
and parses — their count never exceeds the round-trip count and is strictly
smaller whenever tools were requested (see the counterexample); in the Fix
stage the exception path additionally drops the round's `agent_input` entry. -/
theorem patch_audit_structure :
    (∀ (o : Oracle) (pp : String → Except String String) (root : Option String)
        (fs : FileSystem) (n : Nat) (s : PatchState) (r t : Nat),
        countEvent "agent_input" (patchStateOf (patchRun o pp root fs n s r t)).history + r
          = countEvent "agent_input" s.history + patchRoundsOf (patchRun o pp root fs n s r t))
  ∧ (∀ (o : Oracle) (pp : String → Except String String) (root : Option String)
        (fs : FileSystem) (n : Nat) (s : PatchState) (r t : Nat),
        countEvent "tool_call" (patchStateOf (patchRun o pp root fs n s r t)).history + t
          = countEvent "tool_call" s.history + patchToolExecsOf (patchRun o pp root fs n s r t))
  ∧ (∀ (o : Oracle) (pp : String → Except String String) (root : Option String)
        (fs : FileSystem) (n : Nat) (s : PatchState) (r t : Nat),
        countEvent "agent_output" (patchStateOf (patchRun o pp root fs n s r t)).history + r
          ≤ countEvent "agent_output" s.history + patchRoundsOf (patchRun o pp root fs n s r t))
  ∧ (∀ (root : Option String) (fs : FileSystem) (s : PatchState),
        (patch_tool_node root fs s).history
          = s.history ++ (lastMessage s.messages).toolCalls.map
              (patchToolEntryOf root fs s.shared.patch_iteration)) := by
  refine ⟨?_, ?_, ?_, patch_tool_node_history⟩
  · intro o pp root fs n s r t
    exact (patchRun_counts o pp root fs n s r t).1
  · intro o pp root fs n s r t
    exact (patchRun_counts o pp root fs n s r t).2.1
  · intro o pp root fs n s r t
    exact (patchRun_counts o pp root fs n s r t).2.2

/-! ## StageResult overwrite behaviour (C6) -/

/-- An oracle that answers plainly, with content depending on how long the
conversation has grown (first round: a response whose parse yields empty code;
later rounds: real code). -/
def wTwoPhaseOracle : Oracle := fun conv =>
  .ok { role := .ai, content := if conv.length ≤ 3 then "EMPTY" else "CODE" }

/-- A patch parser for `wTwoPhaseOracle`'s outputs. -/
def wTwoPhasePP : String → Except String String := fun raw =>
  .ok (if raw = "EMPTY" then "" else "fixed")

/-- C6 counterexample: in a single Patch run the first round stores a
`patch_result` with `success = false`, and the second round **overwrites** it
with the successful `create_patch_file` result — a StageResult set in shared
memory is replaced by a later iteration of the same stage. -/
theorem patch_result_overwritten_counterexample :
    (patchStateOf (patchRun wTwoPhaseOracle wTwoPhasePP (some "/repo") [] 1 wPatchS 0 0)).shared.patch_result
      = some { success := false, error := some "No files to modify or empty patch code" }
  ∧ (patchStateOf (patchRun wTwoPhaseOracle wTwoPhasePP (some "/repo") [] 5 wPatchS 0 0)).shared.patch_result
      = some { success := true, patch_file := some "patches/fixed_user.py"
               original_file := some "services/user.py"
               fixed_filename := some "fixed_user.py", size_bytes := some 5, lines := some 1
               message := some "Patch created successfully at patches/fixed_user.py" }
  ∧ ({ success := false, error := some "No files to modify or empty patch code" } : PatchResult)
      ≠ { success := true, patch_file := some "patches/fixed_user.py"
          original_file := some "services/user.py"
          fixed_filename := some "fixed_user.py", size_bytes := some 5, lines := some 1
          message := some "Patch created successfully at patches/fixed_user.py" } := by
  exact ⟨rfl, rfl, by decide⟩

/-- C6 amended: a produced `fix_result` ends the Fix stage on the very next
routing decision, an RCA result produced by a non-tool response ends the RCA
stage likewise, and a Patch result with `success = true` ends the Patch stage
(without touching shared memory) — but a Patch result with `success = false`
is *not* protected: the stage retries and later attempts overwrite it until
the cap (see the counterexample). -/
theorem stage_result_overwrite_discipline :
    (∀ s : FixState, s.shared.fix_result.isSome = true → fix_should_continue s = .done)
  ∧ (∀ s : RCAState, (lastMessage s.messages).toolCalls = [] →
        s.shared.rca_result.isSome = true → rca_should_continue s = .done)
  ∧ (∀ (s : PatchState) (pr : PatchResult), s.shared.patch_result = some pr →
        pr.success = true → patch_should_continue s = (.done, s.shared)) := by
  refine ⟨?_, ?_, ?_⟩
  · intro s h
    unfold fix_should_continue
    rw [if_pos h]
  · intro s h1 h2
    unfold rca_should_continue
    by_cases h5 : 5 ≤ s.shared.iteration
    · rw [if_pos h5]
    · rw [if_neg h5, if_neg (by rw [h1]; simp), if_pos h2]
  · intro s pr h hsucc
    unfold patch_should_continue
    rw [if_pos (by rw [h]; simp [hsucc])]

/-- A Fix state holding a produced result. -/
def wFixSDone : FixState := { wFixS with shared := { wFixS.shared with fix_result := some wF } }

/-- An RCA state holding a produced result after a non-tool response. -/
def wRCASDone : RCAState :=
  { messages := [humanMsg "trace text", { role := .ai, content := "final" }]
    shared := { iteration := 2, rca_result := some wRCA }, history := [] }

/-- A Patch state holding a successful result. -/
def wPatchSDone : PatchState :=
  { wPatchS with shared := { wPatchS.shared with
      patch_result := some { success := true, patch_file := some "patches/fixed_user.py"
                             original_file := some "services/user.py" } } }

/-- C6 amended, witness: the three ending rules applied at concrete states. -/
theorem stage_result_overwrite_discipline_witness :
    fix_should_continue wFixSDone = .done
  ∧ rca_should_continue wRCASDone = .done
  ∧ patch_should_continue wPatchSDone = (.done, wPatchSDone.shared) := by
  obtain ⟨h1, h2, h3⟩ := stage_result_overwrite_discipline
  exact ⟨h1 wFixSDone (by decide), h2 wRCASDone (by decide) (by decide),
    h3 wPatchSDone _ rfl rfl⟩

/-! ## Completion-service failures (C7) -/

/-- True exactly on the finished outcome. -/
def patchFinished : PatchOutcome → Prop
  | .finished _ _ _ => True
  | .outOfFuel _ _ _ => False

/-- The state `patch_llm_node` produces when the completion call raises a
non-rate-limit error. -/
def patchRaiseState (s : PatchState) (e : String) : PatchState :=
  { patchS0 s with
    shared := { (patchS0 s).shared with
                patch_result := some { success := false, error := some e } }
    history := (patchS0 s).history
      ++ [{ event := "patch_generation_failed",
            iteration := s.shared.patch_iteration + 1, error := some e }] }

theorem patch_llm_node_raise (o : Oracle) (pp : String → Except String String)
    (s : PatchState) (e : String) (ho : ∀ c, o c = ModelResult.raise e)
    (hrl : isRateLimit e = false) :
    patch_llm_node o pp s = patchRaiseState s e := by
  simp only [patch_llm_node, patchExceptState]
  rw [ho]
  dsimp only
  rw [if_neg (by simp [hrl])]
  rfl

theorem patchRaiseState_route (s : PatchState) (e : String) (m₀ : Message)
    (hm : s.messages = [m₀]) (hm0 : m₀.toolCalls = []) :
    patch_should_continue (patchRaiseState s e)
      = (if 5 ≤ s.shared.patch_iteration + 1 then StageRoute.done else StageRoute.llm,
         (patchRaiseState s e).shared) := by
  have hres : (patchRaiseState s e).shared.patch_result
      = some { success := false, error := some e } := rfl
  have hit : (patchRaiseState s e).shared.patch_iteration
      = s.shared.patch_iteration + 1 := rfl
  have hmsg : (patchRaiseState s e).messages = [m₀] := hm
  unfold patch_should_continue
  rw [hres, hit, hmsg]
  simp only [Option.map_some', Option.getD_some]
  rw [if_neg (by simp)]
  by_cases hcap : 5 ≤ s.shared.patch_iteration + 1
  · rw [if_pos hcap, if_pos hcap]
  · rw [if_neg hcap, if_neg hcap]
    rw [if_neg (by intro hcontra; simp at hcontra)]
    simp [hm0]

theorem patch_raise_loop (o : Oracle) (pp : String → Except String String)
    (root : Option String) (fs : FileSystem) (e : String) (m₀ : Message)
    (ho : ∀ c, o c = ModelResult.raise e) (hrl : isRateLimit e = false)
    (hm0 : m₀.toolCalls = []) :
    ∀ (n : Nat) (s : PatchState) (r t : Nat),
      s.messages = [m₀] → 1 ≤ n → s.shared.patch_iteration + n = 5 →
      patchFinished (patchRun o pp root fs n s r t)
      ∧ patchRoundsOf (patchRun o pp root fs n s r t) = r + n
      ∧ (patchStateOf (patchRun o pp root fs n s r t)).shared.patch_result
          = some { success := false, error := some e } := by
  intro n
  induction n with
  | zero => intro s r t _ h1 _; exact absurd h1 (by omega)
  | succ n ih =>
    intro s r t hm h1 h5
    rw [patchRun, patch_llm_node_raise o pp s e ho hrl,
      patchRaiseState_route s e m₀ hm hm0]
    by_cases hcap : 5 ≤ s.shared.patch_iteration + 1
    · rw [if_pos hcap]
      have hn0 : n = 0 := by omega
      subst hn0
      exact ⟨trivial, rfl, rfl⟩
    · rw [if_neg hcap]
      have hmsg1 : (withShared (patchRaiseState s e) (patchRaiseState s e).shared).messages
          = [m₀] := hm
      have hit1 : (withShared (patchRaiseState s e) (patchRaiseState s e).shared).shared.patch_iteration
          = s.shared.patch_iteration + 1 := rfl
      obtain ⟨ha, hb, hc⟩ := ih (withShared (patchRaiseState s e) (patchRaiseState s e).shared)
        (r + 1) t hmsg1 (by omega) (by rw [hit1]; omega)
      exact ⟨ha, by rw [hb]; omega, hc⟩

/-- The state `fix_llm_node` yields when the completion call raises: the
fallback plan is stored and a single `fix_failed` entry is logged. -/
def fixRaiseState (s : FixState) (r : RCAOutput) (e : String) : FixState :=
  { s with
    shared := { s.shared with iteration := s.shared.iteration + 1
                              fix_result := some (fixFallbackResult r e) }
    history := s.history
      ++ [{ event := "fix_failed", iteration := s.shared.iteration + 1, error := some e }] }

theorem fix_llm_node_raise (o : Oracle) (so : List Message → Except String FixResult)
    (s : FixState) (r : RCAOutput) (e : String)
    (ho : ∀ c, o c = ModelResult.raise e) (hr : s.shared.rca_result = some r) :
    fix_llm_node o so s = Except.ok (fixRaiseState s r e) := by
  simp only [fix_llm_node]
  rw [hr]
  dsimp only
  rw [ho]
  dsimp only
  rw [← hr]
  rfl

theorem fix_raise_run (o : Oracle) (so : List Message → Except String FixResult)
    (root : Option String) (fs : FileSystem) (s : FixState) (r : RCAOutput)
    (e : String) (n r₀ : Nat)
    (ho : ∀ c, o c = ModelResult.raise e) (hr : s.shared.rca_result = some r) :
    fixRun o so root fs (n + 1) s r₀ = FixOutcome.finished (fixRaiseState s r e) (r₀ + 1) := by
  rw [fixRun, fix_llm_node_raise o so s r e ho hr]
  have hroute : fix_should_continue (fixRaiseState s r e) = StageRoute.done := rfl
  dsimp only
  rw [hroute]

theorem rca_raise_run (o : Oracle) (parseRCA : String → Except String RCAOutput)
    (root : Option String) (fs : FileSystem) (gpd : List (String × String) → ToolObs)
    (e : String) (n r₀ : Nat) (s : RCAState)
    (ho : ∀ c, o c = ModelResult.raise e) :
    rcaRun o parseRCA root fs gpd (n + 1) s r₀ = RCAOutcome.raised e r₀ := by
  rw [rcaRun]
  simp only [rca_llm_node]
  rw [ho]

/-- C7 counterexample: with an always-raising completion service, the Fix stage
run from the workflow seed records **no** `stage_failed` entry (it records
`fix_failed`), leaves a **non-empty** StageResult (the fallback plan), and the
Patch stage run from its workflow seed **retries** the model call — five
round-trips, one `patch_generation_failed` entry each — contradicting
"records a stage_failed audit entry, leaves the StageResult empty, and
terminates without retrying the model call". -/
theorem completion_failure_counterexample :
    fixResultOf (fixRun wRaisingOracle wHallucinatingSO none [] 3 wFixS 0)
      = some (fixFallbackResult wRCA "boom")
  ∧ countEvent "stage_failed"
      (fixHistoryOf (fixRun wRaisingOracle wHallucinatingSO none [] 3 wFixS 0)) = 0
  ∧ countEvent "fix_failed"
      (fixHistoryOf (fixRun wRaisingOracle wHallucinatingSO none [] 3 wFixS 0)) = 1
  ∧ patchRoundsOf (patchRun wRaisingOracle wFailingPP none [] 5 wPatchS 0 0) = 5
  ∧ countEvent "stage_failed"
      (patchStateOf (patchRun wRaisingOracle wFailingPP none [] 5 wPatchS 0 0)).history = 0
  ∧ countEvent "patch_generation_failed"
      (patchStateOf (patchRun wRaisingOracle wFailingPP none [] 5 wPatchS 0 0)).history = 5
  ∧ (patchStateOf (patchRun wRaisingOracle wFailingPP none [] 5 wPatchS 0 0)).shared.patch_result
      = some { success := false, error := some "boom" } :=
  ⟨rfl, by decide, by decide, rfl, by decide, by decide, rfl⟩

/-- C7 (amended): when every completion call raises an error `e`, the three
stages diverge. The Fix stage catches it in-node: the run finishes after a
single round-trip with the fallback StageResult stored and a `fix_failed`
entry logged (`fixRaiseState`) — no retry, but no `stage_failed` entry and no
empty result either. The Patch stage (for a non-rate-limit error) catches it,
stores `{success := false, error := e}`, and **retries** every round until the
iteration cap of 5 ends the loop. The RCA stage catches nothing: the exception
propagates out of the stage on the very first round-trip. -/
theorem completion_failure_handling (o : Oracle) (e : String)
    (ho : ∀ c, o c = ModelResult.raise e) (hrl : isRateLimit e = false) :
    (∀ (so : List Message → Except String FixResult) (root : Option String)
        (fs : FileSystem) (s : FixState) (r : RCAOutput) (n r₀ : Nat),
        s.shared.rca_result = some r →
        fixRun o so root fs (n + 1) s r₀
          = FixOutcome.finished (fixRaiseState s r e) (r₀ + 1))
  ∧ (∀ (pp : String → Except String String) (root : Option String) (fs : FileSystem)
        (m₀ : Message) (s : PatchState) (n r₀ t : Nat),
        m₀.toolCalls = [] → s.messages = [m₀] → 1 ≤ n →
        s.shared.patch_iteration + n = 5 →
        patchFinished (patchRun o pp root fs n s r₀ t)
        ∧ patchRoundsOf (patchRun o pp root fs n s r₀ t) = r₀ + n
        ∧ (patchStateOf (patchRun o pp root fs n s r₀ t)).shared.patch_result
            = some { success := false, error := some e })
  ∧ (∀ (parseRCA : String → Except String RCAOutput) (root : Option String)
        (fs : FileSystem) (gpd : List (String × String) → ToolObs)
        (n r₀ : Nat) (s : RCAState),
        rcaRun o parseRCA root fs gpd (n + 1) s r₀ = RCAOutcome.raised e r₀) := by
  refine ⟨?_, ?_, ?_⟩
  · intro so root fs s r n r₀ hr
    exact fix_raise_run o so root fs s r e n r₀ ho hr
  · intro pp root fs m₀ s n r₀ t hm0 hm h1 h5
    exact patch_raise_loop o pp root fs e m₀ ho hrl hm0 n s r₀ t hm h1 h5
  · intro parseRCA root fs gpd n r₀ s
    exact rca_raise_run o parseRCA root fs gpd e n r₀ s ho

/-- C7 witness: the amended theorem applied to the always-raising service at
the workflow-seeded fixture states of all three stages. -/
theorem completion_failure_handling_witness :
    fixRun wRaisingOracle wHallucinatingSO none [] 3 wFixS 0
      = FixOutcome.finished (fixRaiseState wFixS wRCA "boom") 1
  ∧ patchFinished (patchRun wRaisingOracle wFailingPP none [] 5 wPatchS 0 0)
  ∧ patchRoundsOf (patchRun wRaisingOracle wFailingPP none [] 5 wPatchS 0 0) = 0 + 5
  ∧ (patchStateOf (patchRun wRaisingOracle wFailingPP none [] 5 wPatchS 0 0)).shared.patch_result
      = some { success := false, error := some "boom" }
  ∧ rcaRun wRaisingOracle wParse none [] wGpd 5 wRCAS 0 = RCAOutcome.raised "boom" 0 := by
  obtain ⟨h1, h2, h3⟩ :=
    completion_failure_handling wRaisingOracle "boom" (fun _ => rfl) (by decide)
  obtain ⟨ha, hb, hc⟩ := h2 wFailingPP none []
    (humanMsg "Generate patch using Fix Plan and tools") wPatchS 5 0 0 rfl rfl
    (by omega) (by decide)
  exact ⟨h1 wHallucinatingSO none [] wFixS wRCA 2 0 rfl, ha, hb, hc,
    h3 wParse none [] wGpd 4 0 wRCAS⟩

/-! ## The stuck-`read_file` detector (C8) -/

/-- The state `patch_llm_node` yields when the model responds with tool
calls: the response is appended and everything else is `patchS0`. -/
def patchToolCallState (s : PatchState) (m : Message) : PatchState :=
  { patchS0 s with messages := s.messages ++ [m] }

theorem patch_llm_node_toolcall (o : Oracle) (pp : String → Except String String)
    (s : PatchState) (m : Message)
    (ho : o (patchRequest (patchS0 s)) = ModelResult.ok m) (hm : m.toolCalls ≠ []) :
    patch_llm_node o pp s = patchToolCallState s m := by
  simp only [patch_llm_node]
  rw [ho]
  dsimp only
  rw [if_pos (by simp [hm])]
  rfl

theorem lastMessage_append (l : List Message) (m : Message) :
    lastMessage (l ++ [m]) = m := by
  unfold lastMessage
  rw [List.getLast?_concat]
  rfl

theorem withShared_self (s : PatchState) : withShared s s.shared = s := rfl

theorem patchToolStep_read_result (root : Option String) (fs : FileSystem) (i : Nat)
    (tc : ToolCall) (sh : PatchShared) (dir : FileSystem) (h : tc.name = "read_file") :
    ((patchToolStep root fs i tc sh dir).2.2.1).patch_result = sh.patch_result := by
  unfold patchToolStep
  rw [if_pos h]

theorem patchToolStep_msg_toolCalls (root : Option String) (fs : FileSystem) (i : Nat)
    (tc : ToolCall) (sh : PatchShared) (dir : FileSystem) :
    ((patchToolStep root fs i tc sh dir).1).toolCalls = [] := by
  unfold patchToolStep
  split
  · rfl
  · split
    · rfl
    · split <;> rfl

theorem patchToolExec_read_result (root : Option String) (fs : FileSystem) (i : Nat) :
    ∀ (calls : List ToolCall) (sh : PatchShared) (dir : FileSystem),
      (∀ tc ∈ calls, tc.name = "read_file") →
      ((patchToolExec root fs i calls sh dir).2.2.1).patch_result = sh.patch_result := by
  intro calls
  induction calls with
  | nil => intro sh dir _; rfl
  | cons tc rest ih =>
    intro sh dir hall
    show ((patchToolExec root fs i rest (patchToolStep root fs i tc sh dir).2.2.1
      (patchToolStep root fs i tc sh dir).2.2.2).2.2.1).patch_result = sh.patch_result
    rw [ih _ _ (fun tc2 h2 => hall tc2 (List.mem_cons_of_mem tc h2)),
        patchToolStep_read_result root fs i tc sh dir (hall tc (List.mem_cons_self tc rest))]

theorem patchToolExec_msgs (root : Option String) (fs : FileSystem) (i : Nat) :
    ∀ (calls : List ToolCall) (sh : PatchShared) (dir : FileSystem),
      ∀ mm ∈ (patchToolExec root fs i calls sh dir).1, mm.toolCalls = [] := by
  intro calls
  induction calls with
  | nil => intro sh dir mm hmm; exact absurd hmm (List.not_mem_nil mm)
  | cons tc rest ih =>
    intro sh dir mm hmm
    have hshape : (patchToolExec root fs i (tc :: rest) sh dir).1
        = (patchToolStep root fs i tc sh dir).1
          :: (patchToolExec root fs i rest (patchToolStep root fs i tc sh dir).2.2.1
               (patchToolStep root fs i tc sh dir).2.2.2).1 := rfl
    rw [hshape] at hmm
    rcases List.mem_cons.mp hmm with h | h
    · rw [h]; exact patchToolStep_msg_toolCalls root fs i tc sh dir
    · exact ih _ _ mm h

theorem patch_tool_node_read_result (root : Option String) (fs : FileSystem) (s : PatchState)
    (hall : ∀ tc ∈ (lastMessage s.messages).toolCalls, tc.name = "read_file") :
    (patch_tool_node root fs s).shared.patch_result = s.shared.patch_result := by
  simp only [patch_tool_node]
  split
  · rfl
  · exact patchToolExec_read_result root fs _ _ _ _ hall

theorem patch_tool_node_msgs (root : Option String) (fs : FileSystem) (s : PatchState) :
    ∃ extra : List Message,
      (patch_tool_node root fs s).messages = s.messages ++ extra
      ∧ ∀ mm ∈ extra, mm.toolCalls = [] := by
  simp only [patch_tool_node]
  split
  · exact ⟨[], by simp, fun mm hmm => absurd hmm (List.not_mem_nil mm)⟩
  · exact ⟨_, rfl, patchToolExec_msgs root fs _ _ _ _⟩

theorem readFileMsgCount_append (a b : List Message) :
    readFileMsgCount (a ++ b) = readFileMsgCount a + readFileMsgCount b := by
  unfold readFileMsgCount
  rw [List.countP_append]

theorem readFileMsgCount_skip (m : Message) (h : m.toolCalls = []) :
    readFileMsgCount [m] = 0 := by
  unfold readFileMsgCount
  simp [List.countP_cons, List.countP_nil, h]

theorem readFileMsgCount_single_read (m : Message) (hne : m.toolCalls ≠ [])
    (hall : ∀ tc ∈ m.toolCalls, tc.name = "read_file") :
    readFileMsgCount [m] = 1 := by
  unfold readFileMsgCount
  cases hmc : m.toolCalls with
  | nil => exact absurd hmc hne
  | cons tc rest =>
    have hn : tc.name = "read_file" := hall tc (by rw [hmc]; exact List.mem_cons_self tc rest)
    simp [List.countP_cons, List.countP_nil, hmc, hn]

theorem readFileMsgCount_empty_toolCalls (msgs : List Message)
    (h : ∀ mm ∈ msgs, mm.toolCalls = []) : readFileMsgCount msgs = 0 := by
  unfold readFileMsgCount
  rw [List.countP_eq_zero]
  intro mm hmm
  simp [h mm hmm]

theorem patchToolCallState_route_tools (s : PatchState) (m : Message)
    (hpr : s.shared.patch_result = none)
    (hcap : s.shared.patch_iteration + 1 < 5)
    (hlen : s.messages.length + 1 < 3)
    (hmt : m.toolCalls ≠ []) :
    patch_should_continue (patchToolCallState s m)
      = (StageRoute.tools, (patchToolCallState s m).shared) := by
  have h1 : (patchToolCallState s m).shared.patch_result = s.shared.patch_result := rfl
  have h2 : (patchToolCallState s m).shared.patch_iteration = s.shared.patch_iteration + 1 := rfl
  have h3 : (patchToolCallState s m).messages = s.messages ++ [m] := rfl
  unfold patch_should_continue
  rw [h1, hpr, h2, h3]
  rw [if_neg (by simp)]
  rw [if_neg (by omega)]
  rw [if_neg (by
    intro hc
    have hc1 := hc.1
    rw [List.length_append] at hc1
    simp only [List.length_singleton] at hc1
    omega)]
  rw [List.getLast?_concat]
  dsimp only
  rw [if_pos (by simp [hmt])]

theorem patchToolCallState_route_done (s : PatchState) (m : Message)
    (hpr : s.shared.patch_result = none)
    (hcap : s.shared.patch_iteration + 1 < 5)
    (hlen : 3 ≤ s.messages.length + 1)
    (hcount : 2 ≤ readFileMsgCount (s.messages ++ [m])) :
    patch_should_continue (patchToolCallState s m)
      = (StageRoute.done,
         { (patchToolCallState s m).shared with patch_result := some degradedPatchResult }) := by
  have h1 : (patchToolCallState s m).shared.patch_result = s.shared.patch_result := rfl
  have h2 : (patchToolCallState s m).shared.patch_iteration = s.shared.patch_iteration + 1 := rfl
  have h3 : (patchToolCallState s m).messages = s.messages ++ [m] := rfl
  unfold patch_should_continue
  rw [h1, hpr, h2, h3]
  rw [if_neg (by simp)]
  rw [if_neg (by omega)]
  rw [if_pos ⟨by rw [List.length_append]; exact hlen, hcount⟩]

theorem patchRun_tools_step (o : Oracle) (pp : String → Except String String)
    (root : Option String) (fs : FileSystem) (n : Nat) (s : PatchState) (r t : Nat)
    (sh : PatchShared)
    (hroute : patch_should_continue (patch_llm_node o pp s) = (StageRoute.tools, sh)) :
    patchRun o pp root fs (n + 1) s r t
      = patchRun o pp root fs n (patch_tool_node root fs (withShared (patch_llm_node o pp s) sh))
          (r + 1) (t + (toolCallsOfLast (patch_llm_node o pp s)).length) := by
  rw [patchRun, hroute]

theorem patchRun_done_step (o : Oracle) (pp : String → Except String String)
    (root : Option String) (fs : FileSystem) (n : Nat) (s : PatchState) (r t : Nat)
    (sh : PatchShared)
    (hroute : patch_should_continue (patch_llm_node o pp s) = (StageRoute.done, sh)) :
    patchRun o pp root fs (n + 1) s r t
      = PatchOutcome.finished (withShared (patch_llm_node o pp s) sh) (r + 1) t := by
  rw [patchRun, hroute]

/-- C8: in the Patch stage, if the model answers **every** round with tool
calls that are all `read_file` requests, then from any workflow-shaped seed
(a single tool-free seed message, no prior patch result, iteration 0) the loop
is forced to terminate well within the iteration cap: with fuel for at least
two rounds the run finishes after exactly two model round-trips — the second
round the detector (`len(messages) ≥ 3` and at least two `read_file`-requesting
messages) fires — and the stored StageResult is the degraded
`{success := false, error := "Agent failed to generate patch after reading
file"}`; the loop never hangs re-reading. -/
theorem patch_stuck_read_file_terminates (o : Oracle) (pp : String → Except String String)
    (root : Option String) (fs : FileSystem)
    (hro : ∀ c, ∃ m, o c = ModelResult.ok m ∧ m.toolCalls ≠ []
        ∧ ∀ tc ∈ m.toolCalls, tc.name = "read_file")
    (s : PatchState) (m₀ : Message) (n r t : Nat)
    (hm : s.messages = [m₀]) (hm0 : m₀.toolCalls = [])
    (hpr : s.shared.patch_result = none) (hit : s.shared.patch_iteration = 0)
    (hn : 2 ≤ n) :
    patchFinished (patchRun o pp root fs n s r t)
    ∧ patchRoundsOf (patchRun o pp root fs n s r t) = r + 2
    ∧ (patchStateOf (patchRun o pp root fs n s r t)).shared.patch_result
        = some degradedPatchResult := by
  obtain ⟨n2, rfl⟩ : ∃ k, n = k + 1 + 1 := ⟨n - 2, by omega⟩
  obtain ⟨m1, ho1, hm1, hall1⟩ := hro (patchRequest (patchS0 s))
  have hnode1 : patch_llm_node o pp s = patchToolCallState s m1 :=
    patch_llm_node_toolcall o pp s m1 ho1 hm1
  have hcap1 : s.shared.patch_iteration + 1 < 5 := by omega
  have hlen1 : s.messages.length + 1 < 3 := by
    rw [hm]; simp only [List.length_singleton]; omega
  have hroute1 : patch_should_continue (patch_llm_node o pp s)
      = (StageRoute.tools, (patchToolCallState s m1).shared) := by
    rw [hnode1]
    exact patchToolCallState_route_tools s m1 hpr hcap1 hlen1 hm1
  have step1 := patchRun_tools_step o pp root fs (n2 + 1) s r t
    (patchToolCallState s m1).shared hroute1
  rw [hnode1, withShared_self] at step1
  have hx1m : (patchToolCallState s m1).messages = s.messages ++ [m1] := rfl
  have hlast1 : lastMessage (patchToolCallState s m1).messages = m1 := by
    rw [hx1m]; exact lastMessage_append s.messages m1
  have hall1L : ∀ tc ∈ (lastMessage (patchToolCallState s m1).messages).toolCalls,
      tc.name = "read_file" := by rw [hlast1]; exact hall1
  have hpr2 : (patch_tool_node root fs (patchToolCallState s m1)).shared.patch_result
      = none := by
    rw [patch_tool_node_read_result root fs _ hall1L]
    exact hpr
  have hit2 : (patch_tool_node root fs (patchToolCallState s m1)).shared.patch_iteration
      = s.shared.patch_iteration + 1 := by
    rw [patch_tool_node_iteration]
    rfl
  have hcap2 : (patch_tool_node root fs (patchToolCallState s m1)).shared.patch_iteration + 1
      < 5 := by rw [hit2]; omega
  obtain ⟨extra, hextra, hextraTC⟩ := patch_tool_node_msgs root fs (patchToolCallState s m1)
  have hmsgs2 : (patch_tool_node root fs (patchToolCallState s m1)).messages
      = ([m₀] ++ [m1]) ++ extra := by rw [hextra, hx1m, hm]
  have hlen2 : 3 ≤ (patch_tool_node root fs (patchToolCallState s m1)).messages.length + 1 := by
    rw [hmsgs2]
    simp only [List.length_append, List.length_singleton]
    omega
  obtain ⟨m2, ho2, hm2, hall2⟩ :=
    hro (patchRequest (patchS0 (patch_tool_node root fs (patchToolCallState s m1))))
  have hcount2 : 2 ≤ readFileMsgCount
      ((patch_tool_node root fs (patchToolCallState s m1)).messages ++ [m2]) := by
    rw [hmsgs2, readFileMsgCount_append, readFileMsgCount_append, readFileMsgCount_append,
        readFileMsgCount_skip m₀ hm0, readFileMsgCount_single_read m1 hm1 hall1,
        readFileMsgCount_empty_toolCalls extra hextraTC,
        readFileMsgCount_single_read m2 hm2 hall2]
  have hroute2 : patch_should_continue
      (patch_llm_node o pp (patch_tool_node root fs (patchToolCallState s m1)))
      = (StageRoute.done,
         { (patchToolCallState (patch_tool_node root fs (patchToolCallState s m1)) m2).shared
             with patch_result := some degradedPatchResult }) := by
    rw [patch_llm_node_toolcall o pp _ m2 ho2 hm2]
    exact patchToolCallState_route_done _ m2 hpr2 hcap2 hlen2 hcount2
  have step2 := patchRun_done_step o pp root fs n2
    (patch_tool_node root fs (patchToolCallState s m1)) (r + 1)
    (t + (toolCallsOfLast (patchToolCallState s m1)).length) _ hroute2
  rw [step1, step2]
  exact ⟨trivial, rfl, rfl⟩

/-- C8 witness: the detector theorem applied to the always-`read_file` oracle
at the workflow-seeded Patch state. -/
theorem patch_stuck_read_file_terminates_witness :
    patchFinished (patchRun wReadFileOracle wFailingPP none [] 5 wPatchS 0 0)
    ∧ patchRoundsOf (patchRun wReadFileOracle wFailingPP none [] 5 wPatchS 0 0) = 0 + 2
    ∧ (patchStateOf (patchRun wReadFileOracle wFailingPP none [] 5 wPatchS 0 0)).shared.patch_result
        = some degradedPatchResult :=
  patch_stuck_read_file_terminates wReadFileOracle wFailingPP none []
    (fun _ => ⟨_, rfl, by decide, by decide⟩)
    wPatchS (humanMsg "Generate patch using Fix Plan and tools") 5 0 0
    rfl rfl rfl rfl (by omega)
